import Mathlib

/-!
Verification development for the Capitalisman signal-generation and
backtesting core.  The Python modules under `src/` are shallowly embedded
over exact rationals: `signals/base.py` and `signals/combiner.py` (weighted
voting), `config/settings.py` (constant tables), `indicators/*.py`
(causal column transforms), `backtesting/engine.py` (walk-forward loop),
`backtesting/report.py` and `backtesting/metrics.py` (trade list to
equity curve and summary statistics).  Python floats are modelled as `ℚ`
except where a genuine square root appears (the Sharpe ratio), which is
modelled over `ℝ`; `NaN` cells of a pandas column are modelled as `none`.
-/

namespace Capitalisman

/-- `SignalDirection` enum from `src/signals/base.py`. -/
inductive SignalDirection where
  | BUY
  | SELL
  | HOLD
deriving DecidableEq, Repr

/-- `SignalResult` dataclass from `src/signals/base.py`: one indicator's
direction, confidence and human-readable detail. -/
structure SignalResult where
  indicator_name : String
  direction : SignalDirection
  confidence : ℚ
  detail : String
deriving DecidableEq, Repr

/-- Constructor for `SignalResult`; `__post_init__` clamps the confidence
into `[0, 1]`. -/
def mkSignalResult (name : String) (dir : SignalDirection) (conf : ℚ)
    (detail : String) : SignalResult :=
  { indicator_name := name, direction := dir,
    confidence := max 0 (min 1 conf), detail := detail }

/-- Per-direction weighted score accumulator; models the Python dict
`{"BUY": 0.0, "SELL": 0.0, "HOLD": 0.0}` in `combine_signals`. -/
structure Scores where
  buy : ℚ
  sell : ℚ
  hold : ℚ
deriving DecidableEq, Repr

/-- `CombinedSignal` dataclass from `src/signals/base.py`.  The reasoning
strings keep the fixed message text of the source; the interpolated
floating-point score renderings are elided. -/
structure CombinedSignal where
  direction : SignalDirection
  confidence : ℚ
  scores : Scores
  individual_signals : List SignalResult
  reasoning : String
deriving DecidableEq, Repr

/-- Indicator category (values of `INDICATOR_CATEGORIES` in
`src/config/settings.py`). -/
inductive Category where
  | trend
  | momentum
  | volatility
  | volume
deriving DecidableEq, Repr

/-- Horizon bucket used by `TIMESCALE_ADJUSTMENTS`. -/
inductive Timescale where
  | short
  | medium
  | long
deriving DecidableEq, Repr

/-- `WARMUP_BUFFER` from `src/config/settings.py`. -/
def WARMUP_BUFFER : ℕ := 50

/-- `AMBIGUITY_THRESHOLD` from `src/config/settings.py`. -/
def AMBIGUITY_THRESHOLD : ℚ := 0.10

/-- `INDICATOR_WEIGHTS` dict from `src/config/settings.py`, as a total
function; the default `1.0` models Python's `dict.get(name, 1.0)`. -/
def INDICATOR_WEIGHTS (name : String) : ℚ :=
  if name = "SMA Crossover" then 1.0
  else if name = "EMA Crossover" then 1.0
  else if name = "MACD" then 1.2
  else if name = "ADX" then 0.8
  else if name = "RSI" then 1.1
  else if name = "Stochastic" then 1.0
  else if name = "Bollinger Bands" then 0.9
  else if name = "VWAP" then 0.8
  else if name = "OBV" then 0.7
  else 1.0

/-- `INDICATOR_CATEGORIES` dict from `src/config/settings.py`; the default
`trend` models `dict.get(name, "trend")` in `_get_adjusted_weight`. -/
def INDICATOR_CATEGORIES (name : String) : Category :=
  if name = "SMA Crossover" then .trend
  else if name = "EMA Crossover" then .trend
  else if name = "MACD" then .trend
  else if name = "ADX" then .trend
  else if name = "RSI" then .momentum
  else if name = "Stochastic" then .momentum
  else if name = "Bollinger Bands" then .volatility
  else if name = "VWAP" then .volume
  else if name = "OBV" then .volume
  else .trend

/-- `TIMESCALE_ADJUSTMENTS` table from `src/config/settings.py`. -/
def TIMESCALE_ADJUSTMENTS (ts : Timescale) (cat : Category) : ℚ :=
  match ts, cat with
  | .short, .trend => 0.7
  | .short, .momentum => 1.4
  | .short, .volatility => 1.2
  | .short, .volume => 1.0
  | .medium, _ => 1.0
  | .long, .trend => 1.4
  | .long, .momentum => 0.7
  | .long, .volatility => 0.8
  | .long, .volume => 1.0

/-- `_get_timescale` from `src/signals/combiner.py`. -/
def getTimescale (horizon_days : ℕ) : Timescale :=
  if horizon_days ≤ 3 then .short
  else if horizon_days ≤ 10 then .medium
  else .long

/-- `_get_adjusted_weight` from `src/signals/combiner.py`. -/
def getAdjustedWeight (indicator_name : String) (horizon_days : ℕ) : ℚ :=
  INDICATOR_WEIGHTS indicator_name *
    TIMESCALE_ADJUSTMENTS (getTimescale horizon_days) (INDICATOR_CATEGORIES indicator_name)

/-- One accumulation step of the `combine_signals` loop: add
`confidence × weight` to the score of the signal's direction. -/
def addScore (sc : Scores) (dir : SignalDirection) (x : ℚ) : Scores :=
  match dir with
  | .BUY => { sc with buy := sc.buy + x }
  | .SELL => { sc with sell := sc.sell + x }
  | .HOLD => { sc with hold := sc.hold + x }

/-- The score-accumulation loop of `combine_signals`
(`src/signals/combiner.py`, lines 55-66).  The input list pairs each
indicator's dict key (used for the weight lookup) with the `SignalResult`
returned by its `get_signal` at the evaluation index; the indicator
evaluation itself is a separate concern (see the per-indicator
embeddings). -/
def directionScores (signals : List (String × SignalResult)) (horizon_days : ℕ) : Scores :=
  signals.foldl
    (fun sc p => addScore sc p.2.direction (p.2.confidence * getAdjustedWeight p.1 horizon_days))
    ⟨0, 0, 0⟩

/-- `combine_signals` from `src/signals/combiner.py` (lines 31-104),
evaluated on the list of per-indicator signal results at the chosen bar
index.  HOLD scores are accumulated but excluded from the competition;
a zero directional total or a margin below `AMBIGUITY_THRESHOLD` yields
HOLD with confidence 0. -/
def combine_signals (signals : List (String × SignalResult)) (horizon_days : ℕ) :
    CombinedSignal :=
  let scores := directionScores signals horizon_days
  let individual_signals := signals.map (·.2)
  let buy_score := scores.buy
  let sell_score := scores.sell
  let directional_total := buy_score + sell_score
  if directional_total = 0 then
    { direction := .HOLD, confidence := 0, scores := scores,
      individual_signals := individual_signals,
      reasoning := "No actionable signals from any indicator" }
  else
    let top := if sell_score ≤ buy_score then (SignalDirection.BUY, buy_score)
               else (SignalDirection.SELL, sell_score)
    let second_score := if top.1 = SignalDirection.BUY then sell_score else buy_score
    if (top.2 - second_score) / directional_total < AMBIGUITY_THRESHOLD then
      { direction := .HOLD, confidence := 0, scores := scores,
        individual_signals := individual_signals,
        reasoning := "Ambiguous: BUY vs SELL too close to call" }
    else
      { direction := top.1, confidence := top.2 / directional_total, scores := scores,
        individual_signals := individual_signals,
        reasoning := "winner by weighted score" }

/-- `RSI_OVERSOLD` from `src/config/settings.py`. -/
def RSI_OVERSOLD : ℚ := 30

/-- `RSI_OVERBOUGHT` from `src/config/settings.py`. -/
def RSI_OVERBOUGHT : ℚ := 70

/-- `RSI.get_signal` from `src/indicators/momentum.py` (lines 36-64), as a
function of the RSI column value read at the evaluation index (`none`
models a NaN cell). -/
def RSI_get_signal (rsi : Option ℚ) : SignalResult :=
  match rsi with
  | none => mkSignalResult ("RSI") .HOLD 0 ("Insufficient data")
  | some r =>
    if r < RSI_OVERSOLD then
      mkSignalResult ("RSI") .BUY (min 1 ((RSI_OVERSOLD - r) / RSI_OVERSOLD)) ("Oversold")
    else if RSI_OVERBOUGHT < r then
      mkSignalResult ("RSI") .SELL (min 1 ((r - RSI_OVERBOUGHT) / (100 - RSI_OVERBOUGHT)))
        ("Overbought")
    else if r < 45 then mkSignalResult ("RSI") .SELL 0.15 ("Leaning bearish")
    else if 55 < r then mkSignalResult ("RSI") .BUY 0.15 ("Leaning bullish")
    else mkSignalResult ("RSI") .HOLD 0 ("Neutral")

/-- One OHLCV bar of the input DataFrame together with its index
timestamp (timestamps modelled as rationals).  The `Open` column is never
read by any indicator or by the engine and is omitted. -/
structure Bar where
  date : ℚ
  high : ℚ
  low : ℚ
  close : ℚ
  volume : ℚ
deriving DecidableEq, Repr

instance : Inhabited Bar := ⟨⟨0, 0, 0, 0, 0⟩⟩

/-- `df.index[t]` for the series `S`. -/
def dateAt (S : List Bar) (t : ℕ) : ℚ := (S.getD t default).date

/-- `df["Close"].iloc[t]` for the series `S`. -/
def closeAt (S : List Bar) (t : ℕ) : ℚ := (S.getD t default).close

/-- `Trade` dataclass from `src/backtesting/report.py`. -/
structure Trade where
  entry_date : ℚ
  exit_date : ℚ
  direction : SignalDirection
  entry_price : ℚ
  exit_price : ℚ
  predicted_direction : SignalDirection
  actual_direction : SignalDirection
  correct : Bool
  pnl_pct : ℚ
deriving DecidableEq, Repr

instance : Inhabited Trade :=
  ⟨⟨0, 0, .HOLD, 0, 0, .HOLD, .HOLD, false, 0⟩⟩

/-- The value of the float field `profit_factor`: either an ordinary
finite value or the `float("inf")` sentinel produced when there is no
gross loss. -/
inductive PFValue where
  | finite : ℚ → PFValue
  | infinity : PFValue
deriving DecidableEq, Repr

/-- `BacktestReport` dataclass from `src/backtesting/report.py` with its
zero defaults.  The equity curve (a `pd.Series` of values indexed by
dates) is modelled as a list of (date, value) pairs.  The
`sharpe_ratio` float field is embedded separately as
`sharpe_ratio_value` because its value involves real square roots. -/
structure BacktestReport where
  ticker : String
  period : String
  horizon_days : ℕ
  initial_capital : ℚ
  trades : List Trade := []
  total_trades : ℕ := 0
  winning_trades : ℕ := 0
  losing_trades : ℕ := 0
  win_rate : ℚ := 0
  cumulative_return : ℚ := 0
  max_drawdown : ℚ := 0
  profit_factor : PFValue := .finite 0
  equity_curve : List (ℚ × ℚ) := []
deriving DecidableEq, Repr

/-- The trade constructed by the body of the `run_backtest` loop
(`src/backtesting/engine.py`, lines 71-99) when the combined signal at
bar `t` is the non-HOLD direction `pred`. -/
def mkTradeAt (S : List Bar) (horizon_days : ℕ) (t : ℕ) (pred : SignalDirection) : Trade :=
  let entry_price := closeAt S t
  let exit_price := closeAt S (t + horizon_days)
  let actual_change := exit_price - entry_price
  let actual_direction := if 0 < actual_change then SignalDirection.BUY else SignalDirection.SELL
  { entry_date := dateAt S t
    exit_date := dateAt S (t + horizon_days)
    direction := pred
    entry_price := entry_price
    exit_price := exit_price
    predicted_direction := pred
    actual_direction := actual_direction
    correct := decide (pred = actual_direction)
    pnl_pct :=
      if pred = SignalDirection.BUY then (exit_price - entry_price) / entry_price
      else (entry_price - exit_price) / entry_price }

/-- The `while t < test_end` loop of `run_backtest`
(`src/backtesting/engine.py`, lines 61-104).  `decideF t` abstracts
`combine_signals(indicators, computed_df, horizon_days, idx=t,
precomputed=True).direction`, which is a pure function of the bar index
once the indicator columns are precomputed; the claims quantify over
every such decision function.  The loop advances by 1 on HOLD and by
`horizon_days` after appending a trade; the explicit `fuel` argument
bounds the number of iterations and `run_backtest` passes `test_end`,
which suffices for every positive horizon. -/
def scanLoop (decideF : ℕ → SignalDirection) (S : List Bar)
    (horizon_days test_end : ℕ) : ℕ → ℕ → List Trade
  | 0, _ => []
  | fuel + 1, t =>
    if t < test_end then
      match decideF t with
      | .HOLD => scanLoop decideF S horizon_days test_end fuel (t + 1)
      | d => mkTradeAt S horizon_days t d ::
          scanLoop decideF S horizon_days test_end fuel (t + horizon_days)
    else []

/-- `np.mean` over a list of floats. -/
def npMean (l : List ℚ) : ℚ := l.sum / l.length

/-- `np.std(l) ** 2`: population variance (`np.std` uses `ddof=0`). -/
def npVar (l : List ℚ) : ℚ := ((l.map (fun x => (x - npMean l) ^ 2)).sum) / l.length

/-- The `sharpe_ratio` computation of `compute_metrics`
(`src/backtesting/metrics.py`, lines 44-49):
`mean(pnl_pct)/std(pnl_pct) × sqrt(252)` when there is more than one
trade and the standard deviation is nonzero, else `0.0`.  The square
roots force this single metric into `ℝ`; `np.std(returns) > 0` is
written as the equivalent rational test `0 < npVar returns`
(`Real.sqrt v > 0 ↔ 0 < v` for `v ≥ 0`). -/
noncomputable def sharpe_ratio_value (trades : List Trade) : ℝ :=
  let returns := trades.map (·.pnl_pct)
  if 1 < returns.length ∧ 0 < npVar returns then
    ((npMean returns : ℝ) / Real.sqrt ((npVar returns : ℚ) : ℝ)) * Real.sqrt 252
  else 0

/-- The running-peak drawdown loop of `compute_metrics`
(`src/backtesting/metrics.py`, lines 33-42): state is (peak, max_dd),
initial peak is `equity[0]` and the loop visits every equity value. -/
def drawdownLoop (equity : List ℚ) (start : ℚ) : ℚ :=
  (equity.foldl
    (fun pm v =>
      let peak := if pm.1 < v then v else pm.1
      let dd := (peak - v) / peak
      (peak, if pm.2 < dd then dd else pm.2))
    (start, (0 : ℚ))).2

/-- `compute_metrics` from `src/backtesting/metrics.py` (minus the
real-valued `sharpe_ratio` field, embedded as `sharpe_ratio_value`):
fills `total_trades` always and every other metric only when the trade
list is non-empty. -/
def compute_metrics (report : BacktestReport) : BacktestReport :=
  let trades := report.trades
  let report := { report with total_trades := trades.length }
  match trades with
  | [] => report
  | t0 :: _ =>
    let winning_trades := (trades.filter (·.correct)).length
    let losing_trades := trades.length - winning_trades
    let win_rate := (winning_trades : ℚ) / (trades.length : ℚ)
    let equity := List.scanl (fun e t => e * (1 + t.pnl_pct)) report.initial_capital trades
    let dates := t0.entry_date :: trades.map (·.exit_date)
    let cumulative_return := equity.getLastD 0 / equity.headD 0 - 1
    let max_drawdown := drawdownLoop equity (equity.headD 0)
    let gross_profit := ((trades.filter (fun t => decide (0 < t.pnl_pct))).map (·.pnl_pct)).sum
    let gross_loss := abs (((trades.filter (fun t => decide (t.pnl_pct < 0))).map (·.pnl_pct)).sum)
    let profit_factor :=
      if 0 < gross_loss then PFValue.finite (gross_profit / gross_loss) else PFValue.infinity
    { report with
      winning_trades := winning_trades
      losing_trades := losing_trades
      win_rate := win_rate
      cumulative_return := cumulative_return
      max_drawdown := max_drawdown
      profit_factor := profit_factor
      equity_curve := dates.zip equity }

/-- `run_backtest` from `src/backtesting/engine.py`.  The indicator
precomputation (lines 46-48) and the per-index combiner evaluation are
abstracted into `decideF` (see `scanLoop`); the warmup computation, the
short-series early return, the scan loop and the final `compute_metrics`
call follow the source. -/
def run_backtest (decideF : ℕ → SignalDirection) (S : List Bar)
    (lookbacks : List ℕ) (ticker period : String) (horizon_days : ℕ)
    (initial_capital : ℚ) : BacktestReport :=
  let report : BacktestReport :=
    { ticker := ticker, period := period, horizon_days := horizon_days,
      initial_capital := initial_capital }
  let max_lookback := lookbacks.foldl max 0
  let warmup := max_lookback + WARMUP_BUFFER
  if (S.length : ℤ) - (horizon_days : ℤ) ≤ (warmup : ℤ) then report
  else
    let test_end := S.length - horizon_days
    compute_metrics
      { report with
        trades := scanLoop decideF S horizon_days test_end test_end warmup }

/-!
## Indicator column transforms

Every `compute` in `src/indicators/` adds columns produced by rolling or
cumulative (left-to-right) operations of the `ta`/`pandas` libraries.
Those library primitives are not part of this repository; they are
modelled here, faithful to the operations named by the source and by the
spec (rolling mean/min/max/std over a fixed trailing window, recursive
exponentially-weighted means with a minimum-period mask, cumulative
sums, first differences).  A `none` entry models a NaN cell.  All of
them are instances of the single left-to-right combinator `streamMap`,
whose state at position `t` depends only on inputs up to `t`.
-/

/-- Left-to-right stateful map: the output at each position is a function
of the state accumulated over strictly earlier inputs and the current
input. -/
def streamMap (step : σ → α → σ × β) : σ → List α → List β
  | _, [] => []
  | s, a :: as => (step s a).2 :: streamMap step (step s a).1 as

theorem streamMap_take (step : σ → α → σ × β) (s : σ) (l : List α) (n : ℕ) :
    streamMap step s (l.take n) = (streamMap step s l).take n := by
  induction l generalizing s n with
  | nil => simp [streamMap]
  | cons a as ih =>
    cases n with
    | zero => simp [streamMap]
    | succ m => simp [streamMap, ih]

theorem streamMap_length (step : σ → α → σ × β) (s : σ) (l : List α) :
    (streamMap step s l).length = l.length := by
  induction l generalizing s with
  | nil => rfl
  | cons a as ih => simp [streamMap, ih]

/-- `series.rolling(window=w).agg(g)` with the pandas default
`min_periods = w`: the aggregate `g` of the trailing `w` entries (most
recent first), `none` until the window is full. -/
def rollingAgg (w : ℕ) (g : List α → Option ℚ) (xs : List α) : List (Option ℚ) :=
  streamMap
    (fun buf x =>
      let buf2 := (x :: buf).take w
      (buf2, if buf2.length = w then g buf2 else none))
    [] xs

theorem rollingAgg_take (w : ℕ) (g : List α → Option ℚ) (xs : List α) (n : ℕ) :
    rollingAgg w g (xs.take n) = (rollingAgg w g xs).take n :=
  streamMap_take _ _ _ _

/-- Rolling aggregation over a column that may contain NaN cells, with
`min_periods = w`: the output is defined only where the window holds `w`
defined values (pandas propagates NaN otherwise). -/
def rollingAggOpt (w : ℕ) (g : List ℚ → Option ℚ) (xs : List (Option ℚ)) :
    List (Option ℚ) :=
  streamMap
    (fun buf x =>
      let buf2 := (x :: buf).take w
      let vals := buf2.reduceOption
      (buf2, if buf2.length = w ∧ vals.length = w then g vals else none))
    [] xs

theorem rollingAggOpt_take (w : ℕ) (g : List ℚ → Option ℚ) (xs : List (Option ℚ)) (n : ℕ) :
    rollingAggOpt w g (xs.take n) = (rollingAggOpt w g xs).take n :=
  streamMap_take _ _ _ _

/-- Mean of a full window of width `w`. -/
def windowMean (w : ℕ) (l : List ℚ) : ℚ := l.sum / (w : ℚ)

/-- Sample standard deviation (pandas `rolling(...).std()` default
`ddof=1`) of a full window of width `w`; the square root is modelled by
`Rat.sqrt` (the exact value is irrelevant to causality, which holds for
any pointwise function of the window). -/
def windowStd (w : ℕ) (l : List ℚ) : ℚ :=
  Rat.sqrt (((l.map (fun x => (x - windowMean w l) ^ 2)).sum) / ((w : ℚ) - 1))

/-- Largest element of a window. -/
def windowMax (l : List ℚ) : ℚ := l.foldl max (l.headD 0)

/-- Smallest element of a window. -/
def windowMin (l : List ℚ) : ℚ := l.foldl min (l.headD 0)

/-- `ta.trend.sma_indicator(s, window=w)`. -/
def rollingMean (w : ℕ) (xs : List ℚ) : List (Option ℚ) :=
  rollingAgg w (fun l => some (windowMean w l)) xs

/-- `s.ewm(alpha=a, min_periods=minp, adjust=False).mean()` on a column
whose NaN cells (if any) form a leading segment: the recursion
`y = (1-a)·y_prev + a·x` starts at the first defined entry and the
output is masked to `none` until `minp` defined entries were consumed. -/
def ewmOpt (a : ℚ) (minp : ℕ) (xs : List (Option ℚ)) : List (Option ℚ) :=
  streamMap
    (fun st x =>
      match x with
      | none => (st, none)
      | some v =>
        let y := match st.2 with
          | none => v
          | some p => (1 - a) * p + a * v
        let c := st.1 + 1
        ((c, some y), if minp ≤ c then some y else none))
    ((0 : ℕ), (none : Option ℚ)) xs

theorem ewmOpt_take (a : ℚ) (minp : ℕ) (xs : List (Option ℚ)) (n : ℕ) :
    ewmOpt a minp (xs.take n) = (ewmOpt a minp xs).take n :=
  streamMap_take _ _ _ _

/-- `s.ewm(span=w, min_periods=w, adjust=False).mean()` on a NaN-free
column (`ta.trend.ema_indicator`); `alpha = 2/(span+1)`. -/
def ewmSpan (w : ℕ) (xs : List ℚ) : List (Option ℚ) :=
  ewmOpt (2 / ((w : ℚ) + 1)) w (xs.map some)

/-- `s.diff(1)`: first difference, NaN at position 0. -/
def diffOpt (xs : List ℚ) : List (Option ℚ) :=
  streamMap (fun prev x => (some x, prev.map (fun p => x - p))) none xs

theorem diffOpt_take (xs : List ℚ) (n : ℕ) :
    diffOpt (xs.take n) = (diffOpt xs).take n :=
  streamMap_take _ _ _ _

/-- `s.cumsum()`. -/
def cumsum (xs : List ℚ) : List ℚ :=
  streamMap (fun acc x => (acc + x, acc + x)) 0 xs

theorem cumsum_take (xs : List ℚ) (n : ℕ) :
    cumsum (xs.take n) = (cumsum xs).take n :=
  streamMap_take _ _ _ _

/-- Pointwise combination of two columns, `none`-propagating. -/
def zipWithOpt (f : ℚ → ℚ → Option ℚ) (xs ys : List (Option ℚ)) : List (Option ℚ) :=
  List.zipWith
    (fun a b =>
      match a, b with
      | some x, some y => f x y
      | _, _ => none)
    xs ys

theorem zipWithOpt_take (f : ℚ → ℚ → Option ℚ) (xs ys : List (Option ℚ)) (n : ℕ) :
    zipWithOpt f (xs.take n) (ys.take n) = (zipWithOpt f xs ys).take n := by
  simp [zipWithOpt, List.take_zipWith]

/-- `SMA_SHORT` from `src/config/settings.py`. -/
def SMA_SHORT : ℕ := 20

/-- `SMA_LONG` from `src/config/settings.py`. -/
def SMA_LONG : ℕ := 50

/-- `EMA_SHORT` from `src/config/settings.py`. -/
def EMA_SHORT : ℕ := 12

/-- `EMA_LONG` from `src/config/settings.py`. -/
def EMA_LONG : ℕ := 26

/-- `MACD_FAST` from `src/config/settings.py`. -/
def MACD_FAST : ℕ := 12

/-- `MACD_SLOW` from `src/config/settings.py`. -/
def MACD_SLOW : ℕ := 26

/-- `MACD_SIGNAL` from `src/config/settings.py`. -/
def MACD_SIGNAL : ℕ := 9

/-- `ADX_PERIOD` from `src/config/settings.py`. -/
def ADX_PERIOD : ℕ := 14

/-- `RSI_PERIOD` from `src/config/settings.py`. -/
def RSI_PERIOD : ℕ := 14

/-- `STOCH_K` from `src/config/settings.py`. -/
def STOCH_K : ℕ := 14

/-- `STOCH_D` from `src/config/settings.py`. -/
def STOCH_D : ℕ := 3

/-- `STOCH_SMOOTH` from `src/config/settings.py`. -/
def STOCH_SMOOTH : ℕ := 3

/-- `BB_PERIOD` from `src/config/settings.py`. -/
def BB_PERIOD : ℕ := 20

/-- `BB_STD` from `src/config/settings.py`. -/
def BB_STD : ℚ := 2

/-- The `Close` column of the series. -/
def closes (S : List Bar) : List ℚ := S.map Bar.close

/-- `SMA_short` column of `SMACrossover.compute`
(`src/indicators/trend.py`): `ta.trend.sma_indicator(close, 20)`. -/
def SMA_short_col (S : List Bar) : List (Option ℚ) := rollingMean SMA_SHORT (closes S)

/-- `SMA_long` column of `SMACrossover.compute`:
`ta.trend.sma_indicator(close, 50)`. -/
def SMA_long_col (S : List Bar) : List (Option ℚ) := rollingMean SMA_LONG (closes S)

/-- `EMA_short` column of `EMACrossover.compute`:
`ta.trend.ema_indicator(close, 12)`. -/
def EMA_short_col (S : List Bar) : List (Option ℚ) := ewmSpan EMA_SHORT (closes S)

/-- `EMA_long` column of `EMACrossover.compute`:
`ta.trend.ema_indicator(close, 26)`. -/
def EMA_long_col (S : List Bar) : List (Option ℚ) := ewmSpan EMA_LONG (closes S)

/-- `MACD_line` column of `MACD.compute`: fast EMA minus slow EMA
(modelled from `ta.trend.MACD.macd`). -/
def MACD_line_col (S : List Bar) : List (Option ℚ) :=
  zipWithOpt (fun f s => some (f - s)) (ewmSpan MACD_FAST (closes S)) (ewmSpan MACD_SLOW (closes S))

/-- `MACD_signal` column of `MACD.compute`: EMA of the MACD line with
span 9 (modelled from `ta.trend.MACD.macd_signal`). -/
def MACD_signal_col (S : List Bar) : List (Option ℚ) :=
  ewmOpt (2 / ((MACD_SIGNAL : ℚ) + 1)) MACD_SIGNAL (MACD_line_col S)

/-- `MACD_hist` column of `MACD.compute`: line minus signal (modelled
from `ta.trend.MACD.macd_diff`). -/
def MACD_hist_col (S : List Bar) : List (Option ℚ) :=
  zipWithOpt (fun l s => some (l - s)) (MACD_line_col S) (MACD_signal_col S)

/-- `RSI` column of `RSI.compute`: Wilder RSI (modelled from
`ta.momentum.rsi`): gains and losses from the first difference, Wilder
exponential means with `alpha = 1/14, min_periods = 14`, then
`100 - 100/(1 + rs)`; a zero loss-mean gives 100 (infinite `rs`) when
the gain-mean is positive and NaN (`0/0`) when both are zero. -/
def RSI_col (S : List Bar) : List (Option ℚ) :=
  let d := diffOpt (closes S)
  let up := d.map (Option.map (fun x => max x 0))
  let dn := d.map (Option.map (fun x => max (-x) 0))
  zipWithOpt
    (fun u v =>
      if v = 0 then (if u = 0 then none else some 100)
      else some (100 - 100 / (1 + u / v)))
    (ewmOpt (1 / (RSI_PERIOD : ℚ)) RSI_PERIOD up)
    (ewmOpt (1 / (RSI_PERIOD : ℚ)) RSI_PERIOD dn)

/-- `Stoch_K` column of `Stochastic.compute` (modelled from
`ta.momentum.StochasticOscillator.stoch`): `100·(close − min₁₄ low) /
(max₁₄ high − min₁₄ low)` over the trailing 14-bar window, NaN when the
window is degenerate (`max = min`). -/
def Stoch_K_col (S : List Bar) : List (Option ℚ) :=
  rollingAgg STOCH_K
    (fun buf =>
      let mn := windowMin (buf.map Bar.low)
      let mx := windowMax (buf.map Bar.high)
      let c := (buf.headD default).close
      if mx = mn then none else some (100 * (c - mn) / (mx - mn)))
    S

/-- `Stoch_D` column of `Stochastic.compute` (modelled from
`ta.momentum.StochasticOscillator.stoch_signal`): 3-bar rolling mean of
`%K`. -/
def Stoch_D_col (S : List Bar) : List (Option ℚ) :=
  rollingAggOpt STOCH_SMOOTH (fun l => some (windowMean STOCH_SMOOTH l)) (Stoch_K_col S)

/-- `BB_middle` column of `BollingerBands.compute` (modelled from
`ta.volatility.BollingerBands.bollinger_mavg`): 20-bar rolling mean. -/
def BB_middle_col (S : List Bar) : List (Option ℚ) := rollingMean BB_PERIOD (closes S)

/-- `BB_upper` column: rolling mean plus 2 rolling standard deviations. -/
def BB_upper_col (S : List Bar) : List (Option ℚ) :=
  rollingAgg BB_PERIOD
    (fun l => some (windowMean BB_PERIOD l + BB_STD * windowStd BB_PERIOD l)) (closes S)

/-- `BB_lower` column: rolling mean minus 2 rolling standard deviations. -/
def BB_lower_col (S : List Bar) : List (Option ℚ) :=
  rollingAgg BB_PERIOD
    (fun l => some (windowMean BB_PERIOD l - BB_STD * windowStd BB_PERIOD l)) (closes S)

/-- `BB_pband` column (modelled from `bollinger_pband`):
`(close − lower)/(upper − lower)`, NaN on zero band width. -/
def BB_pband_col (S : List Bar) : List (Option ℚ) :=
  rollingAgg BB_PERIOD
    (fun l =>
      let m := windowMean BB_PERIOD l
      let sd := windowStd BB_PERIOD l
      let up := m + BB_STD * sd
      let lo := m - BB_STD * sd
      if up = lo then none else some ((l.headD 0 - lo) / (up - lo)))
    (closes S)

/-- `VWAP` column of `VWAP.compute` (`src/indicators/volume.py`):
`cumsum(typical_price × volume) / cumsum(volume)`, with the zero-volume
degenerate quotient modelled as NaN. -/
def VWAP_col (S : List Bar) : List (Option ℚ) :=
  let num := cumsum (S.map (fun b => ((b.high + b.low + b.close) / 3) * b.volume))
  let den := cumsum (S.map Bar.volume)
  List.zipWith (fun x y => if y = 0 then none else some (x / y)) num den

/-- `OBV` column of `OBV.compute` (modelled from
`ta.volume.on_balance_volume`): cumulative sum of `-volume` where the
close fell below the previous close and `+volume` otherwise (the first
bar, compared against NaN, contributes `+volume`). -/
def OBV_col (S : List Bar) : List ℚ :=
  streamMap
    (fun st b =>
      let delta := match st.1 with
        | none => b.volume
        | some pc => if b.close < pc then -b.volume else b.volume
      let acc := st.2 + delta
      ((some b.close, acc), acc))
    ((none : Option ℚ), (0 : ℚ)) S

/-- `OBV_SMA` column of `OBV.compute`: 20-bar rolling mean of OBV. -/
def OBV_SMA_col (S : List Bar) : List (Option ℚ) := rollingMean 20 (OBV_col S)

/-- State of the Wilder ADX recursion. -/
structure AdxState where
  prev : Option Bar
  cnt : ℕ
  trS : ℚ
  dpS : ℚ
  dnS : ℚ
  dxCnt : ℕ
  dxSum : ℚ
  adx : ℚ

/-- One step of the Wilder ADX recursion.  Modelled from the spec
(§4.1: ADX with period 14, direction by dominant DI) and the standard
Wilder construction used by `ta.trend.ADXIndicator`, which is not part
of this repository: true range and directional movements from
consecutive bars, Wilder smoothing (sum over the first period, then
`s - s/period + x`), `DI± = 100·DM±ₛ/TRₛ`,
`DX = 100·|DI+ − DI−|/(DI+ + DI−)` and ADX as the Wilder mean of DX;
outputs are masked to NaN until defined.  Degenerate quotients yield 0.
Only its left-to-right (causal) shape matters for the claims below. -/
def ADXstep (period : ℕ) (s : AdxState) (b : Bar) :
    AdxState × (Option ℚ × Option ℚ × Option ℚ) :=
  match s.prev with
  | none => ({ s with prev := some b }, (none, none, none))
  | some p =>
    let tr := max (b.high - b.low) (max (abs (b.high - p.close)) (abs (b.low - p.close)))
    let up := b.high - p.high
    let dn := p.low - b.low
    let dmp := if dn < up ∧ 0 < up then up else 0
    let dmn := if up < dn ∧ 0 < dn then dn else 0
    let cnt := s.cnt + 1
    let trS := if cnt ≤ period then s.trS + tr else s.trS - s.trS / (period : ℚ) + tr
    let dpS := if cnt ≤ period then s.dpS + dmp else s.dpS - s.dpS / (period : ℚ) + dmp
    let dnS := if cnt ≤ period then s.dnS + dmn else s.dnS - s.dnS / (period : ℚ) + dmn
    if cnt < period then
      ({ s with prev := some b, cnt := cnt, trS := trS, dpS := dpS, dnS := dnS },
        (none, none, none))
    else
      let dip := if trS = 0 then 0 else 100 * dpS / trS
      let din := if trS = 0 then 0 else 100 * dnS / trS
      let dx := if dip + din = 0 then 0 else 100 * abs (dip - din) / (dip + din)
      let dxCnt := s.dxCnt + 1
      let dxSum := s.dxSum + dx
      if dxCnt < period then
        ({ prev := some b, cnt := cnt, trS := trS, dpS := dpS, dnS := dnS,
           dxCnt := dxCnt, dxSum := dxSum, adx := s.adx },
          (none, some dip, some din))
      else
        let adxVal := if dxCnt = period then dxSum / (period : ℚ)
          else (s.adx * ((period : ℚ) - 1) + dx) / (period : ℚ)
        ({ prev := some b, cnt := cnt, trS := trS, dpS := dpS, dnS := dnS,
           dxCnt := dxCnt, dxSum := dxSum, adx := adxVal },
          (some adxVal, some dip, some din))

/-- The three ADX output columns as one stream. -/
def ADX_stream (S : List Bar) : List (Option ℚ × Option ℚ × Option ℚ) :=
  streamMap (ADXstep ADX_PERIOD) ⟨none, 0, 0, 0, 0, 0, 0, 0⟩ S

/-- `ADX` column of `ADX.compute` (`src/indicators/trend.py`). -/
def ADX_col (S : List Bar) : List (Option ℚ) := (ADX_stream S).map (·.1)

/-- `ADX_pos` column of `ADX.compute`. -/
def ADX_pos_col (S : List Bar) : List (Option ℚ) := (ADX_stream S).map (·.2.1)

/-- `ADX_neg` column of `ADX.compute`. -/
def ADX_neg_col (S : List Bar) : List (Option ℚ) := (ADX_stream S).map (·.2.2)

/-- The nine registered indicator classes of `src/indicators/`. -/
inductive IndicatorId where
  | SMACrossover
  | EMACrossover
  | MACD
  | ADX
  | RSI
  | Stochastic
  | BollingerBands
  | VWAP
  | OBV
deriving DecidableEq, Repr

/-- The `lookback` property of each indicator class. -/
def lookbackI : IndicatorId → ℕ
  | .SMACrossover => SMA_LONG
  | .EMACrossover => EMA_LONG
  | .MACD => MACD_SLOW + MACD_SIGNAL
  | .ADX => ADX_PERIOD * 2
  | .RSI => RSI_PERIOD
  | .Stochastic => STOCH_K + STOCH_D
  | .BollingerBands => BB_PERIOD
  | .VWAP => 1
  | .OBV => 20

/-- All-NaN columns produced by the `if len(df) < self.lookback` guard
of each `compute`. -/
def nanCols (k : ℕ) (S : List Bar) : List (List (Option ℚ)) :=
  List.replicate k (List.replicate S.length none)

/-- The list of columns added by each indicator's `compute` over the
series `S`, including the short-series guard of the source
(`VWAP.compute` has no such guard). -/
def computeI : IndicatorId → List Bar → List (List (Option ℚ))
  | .SMACrossover, S =>
    if S.length < SMA_LONG then nanCols 2 S else [SMA_short_col S, SMA_long_col S]
  | .EMACrossover, S =>
    if S.length < EMA_LONG then nanCols 2 S else [EMA_short_col S, EMA_long_col S]
  | .MACD, S =>
    if S.length < MACD_SLOW + MACD_SIGNAL then nanCols 3 S
    else [MACD_line_col S, MACD_signal_col S, MACD_hist_col S]
  | .ADX, S =>
    if S.length < ADX_PERIOD * 2 then nanCols 3 S
    else [ADX_col S, ADX_pos_col S, ADX_neg_col S]
  | .RSI, S => if S.length < RSI_PERIOD then nanCols 1 S else [RSI_col S]
  | .Stochastic, S =>
    if S.length < STOCH_K + STOCH_D then nanCols 2 S else [Stoch_K_col S, Stoch_D_col S]
  | .BollingerBands, S =>
    if S.length < BB_PERIOD then nanCols 4 S
    else [BB_upper_col S, BB_middle_col S, BB_lower_col S, BB_pband_col S]
  | .VWAP, S => [VWAP_col S]
  | .OBV, S =>
    if S.length < 20 then nanCols 2 S else [(OBV_col S).map some, OBV_SMA_col S]

theorem closes_take (S : List Bar) (n : ℕ) : closes (S.take n) = (closes S).take n := by
  simp [closes, List.map_take]

theorem rollingMean_take (w : ℕ) (xs : List ℚ) (n : ℕ) :
    rollingMean w (xs.take n) = (rollingMean w xs).take n :=
  rollingAgg_take _ _ _ _

theorem ewmSpan_take (w : ℕ) (xs : List ℚ) (n : ℕ) :
    ewmSpan w (xs.take n) = (ewmSpan w xs).take n := by
  simp [ewmSpan, List.map_take, ewmOpt_take]

theorem SMA_short_col_take (S : List Bar) (n : ℕ) :
    SMA_short_col (S.take n) = (SMA_short_col S).take n := by
  simp [SMA_short_col, closes_take, rollingMean_take]

theorem SMA_long_col_take (S : List Bar) (n : ℕ) :
    SMA_long_col (S.take n) = (SMA_long_col S).take n := by
  simp [SMA_long_col, closes_take, rollingMean_take]

theorem EMA_short_col_take (S : List Bar) (n : ℕ) :
    EMA_short_col (S.take n) = (EMA_short_col S).take n := by
  simp [EMA_short_col, closes_take, ewmSpan_take]

theorem EMA_long_col_take (S : List Bar) (n : ℕ) :
    EMA_long_col (S.take n) = (EMA_long_col S).take n := by
  simp [EMA_long_col, closes_take, ewmSpan_take]

theorem MACD_line_col_take (S : List Bar) (n : ℕ) :
    MACD_line_col (S.take n) = (MACD_line_col S).take n := by
  simp [MACD_line_col, closes_take, ewmSpan_take, zipWithOpt_take]

theorem MACD_signal_col_take (S : List Bar) (n : ℕ) :
    MACD_signal_col (S.take n) = (MACD_signal_col S).take n := by
  simp [MACD_signal_col, MACD_line_col_take, ewmOpt_take]

theorem MACD_hist_col_take (S : List Bar) (n : ℕ) :
    MACD_hist_col (S.take n) = (MACD_hist_col S).take n := by
  simp [MACD_hist_col, MACD_line_col_take, MACD_signal_col_take, zipWithOpt_take]

theorem RSI_col_take (S : List Bar) (n : ℕ) :
    RSI_col (S.take n) = (RSI_col S).take n := by
  simp [RSI_col, closes_take, diffOpt_take, List.map_take, ewmOpt_take, zipWithOpt_take]

theorem Stoch_K_col_take (S : List Bar) (n : ℕ) :
    Stoch_K_col (S.take n) = (Stoch_K_col S).take n :=
  rollingAgg_take _ _ _ _

theorem Stoch_D_col_take (S : List Bar) (n : ℕ) :
    Stoch_D_col (S.take n) = (Stoch_D_col S).take n := by
  simp [Stoch_D_col, Stoch_K_col_take, rollingAggOpt_take]

theorem BB_middle_col_take (S : List Bar) (n : ℕ) :
    BB_middle_col (S.take n) = (BB_middle_col S).take n := by
  simp [BB_middle_col, closes_take, rollingMean_take]

theorem BB_upper_col_take (S : List Bar) (n : ℕ) :
    BB_upper_col (S.take n) = (BB_upper_col S).take n := by
  simp [BB_upper_col, closes_take, rollingAgg_take]

theorem BB_lower_col_take (S : List Bar) (n : ℕ) :
    BB_lower_col (S.take n) = (BB_lower_col S).take n := by
  simp [BB_lower_col, closes_take, rollingAgg_take]

theorem BB_pband_col_take (S : List Bar) (n : ℕ) :
    BB_pband_col (S.take n) = (BB_pband_col S).take n := by
  simp [BB_pband_col, closes_take, rollingAgg_take]

theorem VWAP_col_take (S : List Bar) (n : ℕ) :
    VWAP_col (S.take n) = (VWAP_col S).take n := by
  simp [VWAP_col, List.map_take, cumsum_take, ← List.take_zipWith]

theorem OBV_col_take (S : List Bar) (n : ℕ) :
    OBV_col (S.take n) = (OBV_col S).take n :=
  streamMap_take _ _ _ _

theorem OBV_SMA_col_take (S : List Bar) (n : ℕ) :
    OBV_SMA_col (S.take n) = (OBV_SMA_col S).take n := by
  simp [OBV_SMA_col, OBV_col_take, rollingMean_take]

theorem ADX_stream_take (S : List Bar) (n : ℕ) :
    ADX_stream (S.take n) = (ADX_stream S).take n :=
  streamMap_take _ _ _ _

theorem ADX_col_take (S : List Bar) (n : ℕ) :
    ADX_col (S.take n) = (ADX_col S).take n := by
  simp [ADX_col, ADX_stream_take, List.map_take]

theorem ADX_pos_col_take (S : List Bar) (n : ℕ) :
    ADX_pos_col (S.take n) = (ADX_pos_col S).take n := by
  simp [ADX_pos_col, ADX_stream_take, List.map_take]

theorem ADX_neg_col_take (S : List Bar) (n : ℕ) :
    ADX_neg_col (S.take n) = (ADX_neg_col S).take n := by
  simp [ADX_neg_col, ADX_stream_take, List.map_take]

/-- Prefix form of the causality invariant for positions past the
lookback: computing any indicator's columns on the length-`n` prefix
agrees with truncating the full-series computation to `n` entries. -/
theorem computeI_take (ind : IndicatorId) (S : List Bar) (n : ℕ)
    (hlb : lookbackI ind ≤ n) (hn : n ≤ S.length) :
    computeI ind (S.take n) = (computeI ind S).map (fun col => col.take n) := by
  cases ind with
  | SMACrossover =>
    simp only [lookbackI, SMA_LONG] at hlb
    have h1 : ¬ n < SMA_LONG := by simp only [SMA_LONG]; omega
    have h2 : ¬ S.length < SMA_LONG := by simp only [SMA_LONG]; omega
    simp [computeI, h1, h2, SMA_short_col_take, SMA_long_col_take]
  | EMACrossover =>
    simp only [lookbackI, EMA_LONG] at hlb
    have h1 : ¬ n < EMA_LONG := by simp only [EMA_LONG]; omega
    have h2 : ¬ S.length < EMA_LONG := by simp only [EMA_LONG]; omega
    simp [computeI, h1, h2, EMA_short_col_take, EMA_long_col_take]
  | MACD =>
    simp only [lookbackI, MACD_SLOW, MACD_SIGNAL] at hlb
    have h1 : ¬ n < MACD_SLOW + MACD_SIGNAL := by
      simp only [MACD_SLOW, MACD_SIGNAL]; omega
    have h2 : ¬ S.length < MACD_SLOW + MACD_SIGNAL := by
      simp only [MACD_SLOW, MACD_SIGNAL]; omega
    simp [computeI, h1, h2, MACD_line_col_take, MACD_signal_col_take, MACD_hist_col_take]
  | ADX =>
    simp only [lookbackI, ADX_PERIOD] at hlb
    have h1 : ¬ n < ADX_PERIOD * 2 := by simp only [ADX_PERIOD]; omega
    have h2 : ¬ S.length < ADX_PERIOD * 2 := by simp only [ADX_PERIOD]; omega
    simp [computeI, h1, h2, ADX_col_take, ADX_pos_col_take, ADX_neg_col_take]
  | RSI =>
    simp only [lookbackI, RSI_PERIOD] at hlb
    have h1 : ¬ n < RSI_PERIOD := by simp only [RSI_PERIOD]; omega
    have h2 : ¬ S.length < RSI_PERIOD := by simp only [RSI_PERIOD]; omega
    simp [computeI, h1, h2, RSI_col_take]
  | Stochastic =>
    simp only [lookbackI, STOCH_K, STOCH_D] at hlb
    have h1 : ¬ n < STOCH_K + STOCH_D := by simp only [STOCH_K, STOCH_D]; omega
    have h2 : ¬ S.length < STOCH_K + STOCH_D := by simp only [STOCH_K, STOCH_D]; omega
    simp [computeI, h1, h2, Stoch_K_col_take, Stoch_D_col_take]
  | BollingerBands =>
    simp only [lookbackI, BB_PERIOD] at hlb
    have h1 : ¬ n < BB_PERIOD := by simp only [BB_PERIOD]; omega
    have h2 : ¬ S.length < BB_PERIOD := by simp only [BB_PERIOD]; omega
    simp [computeI, h1, h2, BB_upper_col_take, BB_middle_col_take, BB_lower_col_take,
      BB_pband_col_take]
  | VWAP => simp [computeI, VWAP_col_take]
  | OBV =>
    simp only [lookbackI] at hlb
    have h1 : ¬ n < 20 := by omega
    have h2 : ¬ S.length < 20 := by omega
    simp [computeI, h1, h2, List.map_take, OBV_col_take, OBV_SMA_col_take]

theorem TIMESCALE_ADJUSTMENTS_pos (ts : Timescale) (cat : Category) :
    0 < TIMESCALE_ADJUSTMENTS ts cat := by
  cases ts <;> cases cat <;> norm_num [TIMESCALE_ADJUSTMENTS]

theorem INDICATOR_WEIGHTS_pos (name : String) : 0 < INDICATOR_WEIGHTS name := by
  unfold INDICATOR_WEIGHTS
  repeat' split
  all_goals norm_num

theorem getAdjustedWeight_pos (name : String) (horizon_days : ℕ) :
    0 < getAdjustedWeight name horizon_days :=
  mul_pos (INDICATOR_WEIGHTS_pos name) (TIMESCALE_ADJUSTMENTS_pos _ _)

theorem directionScores_foldl_mono (signals : List (String × SignalResult))
    (horizon_days : ℕ) (sc : Scores)
    (hconf : ∀ p ∈ signals, 0 ≤ p.2.confidence) :
    sc.buy ≤ (signals.foldl
        (fun sc p => addScore sc p.2.direction (p.2.confidence * getAdjustedWeight p.1 horizon_days))
        sc).buy ∧
    sc.sell ≤ (signals.foldl
        (fun sc p => addScore sc p.2.direction (p.2.confidence * getAdjustedWeight p.1 horizon_days))
        sc).sell := by
  induction signals generalizing sc with
  | nil => exact ⟨le_refl _, le_refl _⟩
  | cons p ps ih =>
    have hx : 0 ≤ p.2.confidence * getAdjustedWeight p.1 horizon_days :=
      mul_nonneg (hconf p (List.mem_cons_self p ps)) (le_of_lt (getAdjustedWeight_pos _ _))
    have ihp := ih (addScore sc p.2.direction (p.2.confidence * getAdjustedWeight p.1 horizon_days))
      (fun q hq => hconf q (List.mem_cons_of_mem p hq))
    have hstep :
        sc.buy ≤ (addScore sc p.2.direction (p.2.confidence * getAdjustedWeight p.1 horizon_days)).buy ∧
        sc.sell ≤ (addScore sc p.2.direction (p.2.confidence * getAdjustedWeight p.1 horizon_days)).sell := by
      cases hdir : p.2.direction <;> simp [addScore, hdir] <;> linarith
    exact ⟨le_trans hstep.1 (by simpa [List.foldl] using ihp.1),
      le_trans hstep.2 (by simpa [List.foldl] using ihp.2)⟩

theorem directionScores_buy_nonneg (signals : List (String × SignalResult))
    (horizon_days : ℕ) (hconf : ∀ p ∈ signals, 0 ≤ p.2.confidence) :
    0 ≤ (directionScores signals horizon_days).buy :=
  (directionScores_foldl_mono signals horizon_days ⟨0, 0, 0⟩ hconf).1

theorem directionScores_sell_nonneg (signals : List (String × SignalResult))
    (horizon_days : ℕ) (hconf : ∀ p ∈ signals, 0 ≤ p.2.confidence) :
    0 ≤ (directionScores signals horizon_days).sell :=
  (directionScores_foldl_mono signals horizon_days ⟨0, 0, 0⟩ hconf).2

/-- The weighted BUY total of `combine_signals`. -/
def buyScore (signals : List (String × SignalResult)) (horizon_days : ℕ) : ℚ :=
  (directionScores signals horizon_days).buy

/-- The weighted SELL total of `combine_signals`. -/
def sellScore (signals : List (String × SignalResult)) (horizon_days : ℕ) : ℚ :=
  (directionScores signals horizon_days).sell

theorem combine_eq_of_total_eq_zero (signals : List (String × SignalResult))
    (horizon_days : ℕ)
    (h0 : (directionScores signals horizon_days).buy +
      (directionScores signals horizon_days).sell = 0) :
    combine_signals signals horizon_days =
      { direction := .HOLD, confidence := 0, scores := directionScores signals horizon_days,
        individual_signals := signals.map (·.2),
        reasoning := "No actionable signals from any indicator" } := by
  simp only [combine_signals]
  rw [if_pos h0]

theorem combine_eq_amb_buy (signals : List (String × SignalResult)) (horizon_days : ℕ)
    (h0 : ¬ ((directionScores signals horizon_days).buy +
      (directionScores signals horizon_days).sell = 0))
    (hbs : (directionScores signals horizon_days).sell ≤ (directionScores signals horizon_days).buy)
    (hamb : ((directionScores signals horizon_days).buy -
        (directionScores signals horizon_days).sell) /
        ((directionScores signals horizon_days).buy +
          (directionScores signals horizon_days).sell) < AMBIGUITY_THRESHOLD) :
    combine_signals signals horizon_days =
      { direction := .HOLD, confidence := 0, scores := directionScores signals horizon_days,
        individual_signals := signals.map (·.2),
        reasoning := "Ambiguous: BUY vs SELL too close to call" } := by
  simp only [combine_signals]
  rw [if_neg h0, if_pos hbs]
  simp [hamb]

theorem combine_eq_amb_sell (signals : List (String × SignalResult)) (horizon_days : ℕ)
    (h0 : ¬ ((directionScores signals horizon_days).buy +
      (directionScores signals horizon_days).sell = 0))
    (hbs : ¬ ((directionScores signals horizon_days).sell ≤
      (directionScores signals horizon_days).buy))
    (hamb : ((directionScores signals horizon_days).sell -
        (directionScores signals horizon_days).buy) /
        ((directionScores signals horizon_days).buy +
          (directionScores signals horizon_days).sell) < AMBIGUITY_THRESHOLD) :
    combine_signals signals horizon_days =
      { direction := .HOLD, confidence := 0, scores := directionScores signals horizon_days,
        individual_signals := signals.map (·.2),
        reasoning := "Ambiguous: BUY vs SELL too close to call" } := by
  simp only [combine_signals]
  rw [if_neg h0, if_neg hbs]
  simp [hamb]

theorem combine_eq_decided_buy (signals : List (String × SignalResult)) (horizon_days : ℕ)
    (h0 : ¬ ((directionScores signals horizon_days).buy +
      (directionScores signals horizon_days).sell = 0))
    (hbs : (directionScores signals horizon_days).sell ≤ (directionScores signals horizon_days).buy)
    (hamb : ¬ (((directionScores signals horizon_days).buy -
        (directionScores signals horizon_days).sell) /
        ((directionScores signals horizon_days).buy +
          (directionScores signals horizon_days).sell) < AMBIGUITY_THRESHOLD)) :
    combine_signals signals horizon_days =
      { direction := .BUY,
        confidence := (directionScores signals horizon_days).buy /
          ((directionScores signals horizon_days).buy +
            (directionScores signals horizon_days).sell),
        scores := directionScores signals horizon_days,
        individual_signals := signals.map (·.2),
        reasoning := "winner by weighted score" } := by
  simp only [combine_signals]
  rw [if_neg h0, if_pos hbs]
  simp [hamb]

theorem combine_eq_decided_sell (signals : List (String × SignalResult)) (horizon_days : ℕ)
    (h0 : ¬ ((directionScores signals horizon_days).buy +
      (directionScores signals horizon_days).sell = 0))
    (hbs : ¬ ((directionScores signals horizon_days).sell ≤
      (directionScores signals horizon_days).buy))
    (hamb : ¬ (((directionScores signals horizon_days).sell -
        (directionScores signals horizon_days).buy) /
        ((directionScores signals horizon_days).buy +
          (directionScores signals horizon_days).sell) < AMBIGUITY_THRESHOLD)) :
    combine_signals signals horizon_days =
      { direction := .SELL,
        confidence := (directionScores signals horizon_days).sell /
          ((directionScores signals horizon_days).buy +
            (directionScores signals horizon_days).sell),
        scores := directionScores signals horizon_days,
        individual_signals := signals.map (·.2),
        reasoning := "winner by weighted score" } := by
  simp only [combine_signals]
  rw [if_neg h0, if_neg hbs]
  simp [hamb]

/-- Two opposed, equal-weighted signals (BUY 0.5 vs SELL 0.5; the two
indicators have equal base weight 1.0 and the same category, hence equal
adjusted weight at every horizon). -/
def equalOpposedSignals : List (String × SignalResult) :=
  [(("SMA Crossover"), mkSignalResult ("SMA Crossover") .BUY 0.5 ("")),
   (("EMA Crossover"), mkSignalResult ("EMA Crossover") .SELL 0.5 (""))]

/-- The condition under which the claim says the combiner yields
HOLD/confidence 0: zero directional total, or a margin
`(top − second)/(top + second)` below the ambiguity threshold. -/
def combinerHoldCond (signals : List (String × SignalResult)) (horizon_days : ℕ) : Prop :=
  buyScore signals horizon_days + sellScore signals horizon_days = 0 ∨
    (max (buyScore signals horizon_days) (sellScore signals horizon_days) -
        min (buyScore signals horizon_days) (sellScore signals horizon_days)) /
      (max (buyScore signals horizon_days) (sellScore signals horizon_days) +
        min (buyScore signals horizon_days) (sellScore signals horizon_days)) <
      AMBIGUITY_THRESHOLD

/-- The characterization of `combine_signals` asserted by the claim:
HOLD/confidence-0 exactly under `combinerHoldCond`; otherwise the
direction is the larger total's label (ties to BUY) and the confidence
is `top/(top+second)`; and the two opposed equal-weighted signals yield
HOLD with confidence 0. -/
def combinerSpecBody (signals : List (String × SignalResult)) (horizon_days : ℕ) : Prop :=
  (((combine_signals signals horizon_days).direction = SignalDirection.HOLD ∧
      (combine_signals signals horizon_days).confidence = 0) ↔
    combinerHoldCond signals horizon_days) ∧
  (¬ combinerHoldCond signals horizon_days →
    (combine_signals signals horizon_days).direction =
      (if sellScore signals horizon_days ≤ buyScore signals horizon_days then
        SignalDirection.BUY else SignalDirection.SELL) ∧
    (combine_signals signals horizon_days).confidence =
      max (buyScore signals horizon_days) (sellScore signals horizon_days) /
        (max (buyScore signals horizon_days) (sellScore signals horizon_days) +
          min (buyScore signals horizon_days) (sellScore signals horizon_days))) ∧
  ((combine_signals equalOpposedSignals 5).direction = SignalDirection.HOLD ∧
    (combine_signals equalOpposedSignals 5).confidence = 0)

/-- C1: for every set of indicator signals and horizon, the combiner
outputs HOLD with confidence 0 exactly when the weighted BUY+SELL total
is 0 or the margin `(top−second)/(top+second)` is below the ambiguity
threshold 0.10; otherwise the direction is the larger total's label
(ties to BUY) with confidence `top/(top+second)`; and two opposed
equal-weighted 0.5-confidences yield HOLD with confidence 0. -/
theorem combine_signals_spec (signals : List (String × SignalResult)) (horizon_days : ℕ) :
    combinerSpecBody signals horizon_days := by
  have hconcrete : (combine_signals equalOpposedSignals 5).direction = SignalDirection.HOLD ∧
      (combine_signals equalOpposedSignals 5).confidence = 0 := by
    constructor <;>
    · simp only [equalOpposedSignals, combine_signals, directionScores, addScore,
        getAdjustedWeight, INDICATOR_WEIGHTS, INDICATOR_CATEGORIES, TIMESCALE_ADJUSTMENTS,
        getTimescale, mkSignalResult, AMBIGUITY_THRESHOLD, String.reduceEq, List.foldl,
        List.map]
      norm_num
  simp only [combinerSpecBody, combinerHoldCond, buyScore, sellScore]
  refine ⟨?_, ?_, hconcrete⟩
  · by_cases h0 : (directionScores signals horizon_days).buy +
        (directionScores signals horizon_days).sell = 0
    · rw [combine_eq_of_total_eq_zero signals horizon_days h0]
      simp [h0]
    · by_cases hbs : (directionScores signals horizon_days).sell ≤
          (directionScores signals horizon_days).buy
      · have hmax := max_eq_left hbs
        have hmin := min_eq_right hbs
        by_cases hamb : ((directionScores signals horizon_days).buy -
            (directionScores signals horizon_days).sell) /
            ((directionScores signals horizon_days).buy +
              (directionScores signals horizon_days).sell) < AMBIGUITY_THRESHOLD
        · rw [combine_eq_amb_buy signals horizon_days h0 hbs hamb]
          simp [h0, hmax, hmin, hamb]
        · rw [combine_eq_decided_buy signals horizon_days h0 hbs hamb]
          simp [h0, hmax, hmin, hamb]
      · have hlt := lt_of_not_le hbs
        have hmax := max_eq_right (le_of_lt hlt)
        have hmin := min_eq_left (le_of_lt hlt)
        by_cases hamb : ((directionScores signals horizon_days).sell -
            (directionScores signals horizon_days).buy) /
            ((directionScores signals horizon_days).buy +
              (directionScores signals horizon_days).sell) < AMBIGUITY_THRESHOLD
        · rw [combine_eq_amb_sell signals horizon_days h0 hbs hamb]
          simp only [hmax, hmin]
          rw [add_comm ((directionScores signals horizon_days).sell)
            ((directionScores signals horizon_days).buy)]
          simp [h0, hamb]
        · rw [combine_eq_decided_sell signals horizon_days h0 hbs hamb]
          simp only [hmax, hmin]
          rw [add_comm ((directionScores signals horizon_days).sell)
            ((directionScores signals horizon_days).buy)]
          simp [h0, hamb]
  · intro hn
    obtain ⟨h0, hambm⟩ := not_or.mp hn
    by_cases hbs : (directionScores signals horizon_days).sell ≤
        (directionScores signals horizon_days).buy
    · have hmax := max_eq_left hbs
      have hmin := min_eq_right hbs
      rw [hmax, hmin] at hambm
      rw [combine_eq_decided_buy signals horizon_days h0 hbs hambm]
      simp [hbs, hmax, hmin]
    · have hlt := lt_of_not_le hbs
      have hmax := max_eq_right (le_of_lt hlt)
      have hmin := min_eq_left (le_of_lt hlt)
      rw [hmax, hmin,
        add_comm ((directionScores signals horizon_days).sell)
          ((directionScores signals horizon_days).buy)] at hambm
      rw [combine_eq_decided_sell signals horizon_days h0 hbs hambm]
      simp only [hmax, hmin]
      rw [add_comm ((directionScores signals horizon_days).sell)
        ((directionScores signals horizon_days).buy)]
      simp [hbs]

/-- C10: whenever the combiner emits an actionable (non-HOLD) direction,
its confidence lies in [0.55, 1]: the ambiguity threshold 0.10 on
`(top−second)/(top+second)` forces `top/(top+second) ≥ 0.55`, and
nonnegative scores cap it at 1. -/
theorem combine_signals_confidence_bounds (signals : List (String × SignalResult))
    (horizon_days : ℕ) (hconf : ∀ p ∈ signals, 0 ≤ p.2.confidence)
    (hdir : (combine_signals signals horizon_days).direction ≠ SignalDirection.HOLD) :
    11 / 20 ≤ (combine_signals signals horizon_days).confidence ∧
      (combine_signals signals horizon_days).confidence ≤ 1 := by
  have hb := directionScores_buy_nonneg signals horizon_days hconf
  have hs := directionScores_sell_nonneg signals horizon_days hconf
  by_cases h0 : (directionScores signals horizon_days).buy +
      (directionScores signals horizon_days).sell = 0
  · rw [combine_eq_of_total_eq_zero signals horizon_days h0] at hdir
    simp at hdir
  · have htot : 0 < (directionScores signals horizon_days).buy +
        (directionScores signals horizon_days).sell :=
      lt_of_le_of_ne (add_nonneg hb hs) (Ne.symm h0)
    by_cases hbs : (directionScores signals horizon_days).sell ≤
        (directionScores signals horizon_days).buy
    · by_cases hamb : ((directionScores signals horizon_days).buy -
          (directionScores signals horizon_days).sell) /
          ((directionScores signals horizon_days).buy +
            (directionScores signals horizon_days).sell) < AMBIGUITY_THRESHOLD
      · rw [combine_eq_amb_buy signals horizon_days h0 hbs hamb] at hdir
        simp at hdir
      · rw [combine_eq_decided_buy signals horizon_days h0 hbs hamb]
        rw [not_lt] at hamb
        simp only [AMBIGUITY_THRESHOLD] at hamb
        rw [le_div_iff₀ htot] at hamb
        constructor
        · rw [le_div_iff₀ htot]
          nlinarith
        · rw [div_le_one htot]
          linarith
    · by_cases hamb : ((directionScores signals horizon_days).sell -
          (directionScores signals horizon_days).buy) /
          ((directionScores signals horizon_days).buy +
            (directionScores signals horizon_days).sell) < AMBIGUITY_THRESHOLD
      · rw [combine_eq_amb_sell signals horizon_days h0 hbs hamb] at hdir
        simp at hdir
      · rw [combine_eq_decided_sell signals horizon_days h0 hbs hamb]
        rw [not_lt] at hamb
        simp only [AMBIGUITY_THRESHOLD] at hamb
        rw [le_div_iff₀ htot] at hamb
        constructor
        · rw [le_div_iff₀ htot]
          nlinarith
        · rw [div_le_one htot]
          linarith

/-- Witness instantiating the combiner characterization at the concrete
opposed-equal pair. -/
theorem combine_signals_spec_witness : combinerSpecBody equalOpposedSignals 5 :=
  combine_signals_spec equalOpposedSignals 5

/-- C8: at an index where RSI = 25 the RSI rule emits BUY with
confidence (30−25)/30, and with RSI as sole voter the combiner at
horizon 5 outputs BUY with confidence exactly 1. -/
theorem rsi_sole_voter :
    (RSI_get_signal (some 25)).direction = SignalDirection.BUY ∧
    (RSI_get_signal (some 25)).confidence = (30 - 25) / 30 ∧
    (combine_signals [(("RSI"), RSI_get_signal (some 25))] 5).direction =
      SignalDirection.BUY ∧
    (combine_signals [(("RSI"), RSI_get_signal (some 25))] 5).confidence = 1 := by
  refine ⟨?_, ?_, ?_, ?_⟩ <;>
  · simp only [combine_signals, directionScores, addScore, getAdjustedWeight,
      INDICATOR_WEIGHTS, INDICATOR_CATEGORIES, TIMESCALE_ADJUSTMENTS, getTimescale,
      mkSignalResult, RSI_get_signal, RSI_OVERSOLD, RSI_OVERBOUGHT, AMBIGUITY_THRESHOLD,
      String.reduceEq, List.foldl, List.map]
    norm_num

/-- Witness for the confidence-bounds theorem at a concrete sole BUY
voter. -/
theorem combine_signals_confidence_bounds_witness :
    (∀ p ∈ [(("RSI"), mkSignalResult ("RSI") .BUY 1 (""))], 0 ≤ p.2.confidence) ∧
    (combine_signals [(("RSI"), mkSignalResult ("RSI") .BUY 1 (""))] 5).direction ≠
      SignalDirection.HOLD ∧
    (11 / 20 ≤ (combine_signals [(("RSI"), mkSignalResult ("RSI") .BUY 1 (""))] 5).confidence ∧
      (combine_signals [(("RSI"), mkSignalResult ("RSI") .BUY 1 (""))] 5).confidence ≤ 1) := by
  have hconf : ∀ p ∈ [(("RSI"), mkSignalResult ("RSI") .BUY 1 (""))], 0 ≤ p.2.confidence := by
    intro p hp
    simp only [List.mem_singleton] at hp
    subst hp
    exact le_max_left 0 _
  have hdir : (combine_signals [(("RSI"), mkSignalResult ("RSI") .BUY 1 (""))] 5).direction ≠
      SignalDirection.HOLD := by
    have : (combine_signals [(("RSI"), mkSignalResult ("RSI") .BUY 1 (""))] 5).direction =
        SignalDirection.BUY := by
      simp only [combine_signals, directionScores, addScore, getAdjustedWeight,
        INDICATOR_WEIGHTS, INDICATOR_CATEGORIES, TIMESCALE_ADJUSTMENTS, getTimescale,
        mkSignalResult, AMBIGUITY_THRESHOLD, String.reduceEq, List.foldl, List.map]
      norm_num
    rw [this]
    simp
  exact ⟨hconf, hdir,
    combine_signals_confidence_bounds [(("RSI"), mkSignalResult ("RSI") .BUY 1 (""))] 5
      hconf hdir⟩

/-!
## Backtest engine lemmas
-/

theorem compute_metrics_trades (r : BacktestReport) : (compute_metrics r).trades = r.trades := by
  unfold compute_metrics
  rcases h : r.trades with _ | ⟨t0, ts⟩ <;> simp [h]

theorem scanLoop_mem (decideF : ℕ → SignalDirection) (S : List Bar)
    (horizon_days test_end : ℕ) :
    ∀ fuel t tr, tr ∈ scanLoop decideF S horizon_days test_end fuel t →
      ∃ u, t ≤ u ∧ u < test_end ∧ decideF u ≠ SignalDirection.HOLD ∧
        tr = mkTradeAt S horizon_days u (decideF u) := by
  intro fuel
  induction fuel with
  | zero => intro t tr h; simp [scanLoop] at h
  | succ n ih =>
    intro t tr h
    rw [scanLoop] at h
    by_cases hlt : t < test_end
    · rw [if_pos hlt] at h
      rcases hd : decideF t with _ | _ | _ <;> rw [hd] at h
      · rcases (List.mem_cons.mp h) with rfl | hmem
        · exact ⟨t, le_refl t, hlt, by rw [hd]; simp, by rw [hd]⟩
        · obtain ⟨u, hu1, hu2, hu3, hu4⟩ := ih (t + horizon_days) tr hmem
          exact ⟨u, by omega, hu2, hu3, hu4⟩
      · rcases (List.mem_cons.mp h) with rfl | hmem
        · exact ⟨t, le_refl t, hlt, by rw [hd]; simp, by rw [hd]⟩
        · obtain ⟨u, hu1, hu2, hu3, hu4⟩ := ih (t + horizon_days) tr hmem
          exact ⟨u, by omega, hu2, hu3, hu4⟩
      · obtain ⟨u, hu1, hu2, hu3, hu4⟩ := ih (t + 1) tr h
        exact ⟨u, by omega, hu2, hu3, hu4⟩
    · rw [if_neg hlt] at h
      simp at h

theorem scanLoop_chain (decideF : ℕ → SignalDirection) (S : List Bar)
    (horizon_days test_end : ℕ)
    (hmono : ∀ i j, i ≤ j → j < S.length → dateAt S i ≤ dateAt S j)
    (hhor : 1 ≤ horizon_days) (hrange : test_end + horizon_days ≤ S.length) :
    ∀ fuel t, List.Chain' (fun a b => a.exit_date ≤ b.entry_date)
      (scanLoop decideF S horizon_days test_end fuel t) := by
  intro fuel
  induction fuel with
  | zero => intro t; simp [scanLoop]
  | succ n ih =>
    intro t
    rw [scanLoop]
    by_cases hlt : t < test_end
    · rw [if_pos hlt]
      cases hd : decideF t with
      | HOLD => exact ih (t + 1)
      | BUY =>
        change List.Chain' _ (mkTradeAt S horizon_days t _ ::
          scanLoop decideF S horizon_days test_end n (t + horizon_days))
        rw [List.chain'_cons']
        refine ⟨?_, ih (t + horizon_days)⟩
        intro b hb
        have hmem : b ∈ scanLoop decideF S horizon_days test_end n (t + horizon_days) :=
          List.mem_of_mem_head? hb
        obtain ⟨u, hu1, hu2, _, rfl⟩ :=
          scanLoop_mem decideF S horizon_days test_end n (t + horizon_days) b hmem
        show (mkTradeAt S horizon_days t _).exit_date ≤
          (mkTradeAt S horizon_days u _).entry_date
        simp only [mkTradeAt]
        exact hmono (t + horizon_days) u hu1 (by omega)
      | SELL =>
        change List.Chain' _ (mkTradeAt S horizon_days t _ ::
          scanLoop decideF S horizon_days test_end n (t + horizon_days))
        rw [List.chain'_cons']
        refine ⟨?_, ih (t + horizon_days)⟩
        intro b hb
        have hmem : b ∈ scanLoop decideF S horizon_days test_end n (t + horizon_days) :=
          List.mem_of_mem_head? hb
        obtain ⟨u, hu1, hu2, _, rfl⟩ :=
          scanLoop_mem decideF S horizon_days test_end n (t + horizon_days) b hmem
        show (mkTradeAt S horizon_days t _).exit_date ≤
          (mkTradeAt S horizon_days u _).entry_date
        simp only [mkTradeAt]
        exact hmono (t + horizon_days) u hu1 (by omega)
    · rw [if_neg hlt]
      simp

theorem run_backtest_trades (decideF : ℕ → SignalDirection) (S : List Bar)
    (lookbacks : List ℕ) (ticker period : String) (horizon_days : ℕ) (initial_capital : ℚ) :
    (run_backtest decideF S lookbacks ticker period horizon_days initial_capital).trades =
      if (S.length : ℤ) - (horizon_days : ℤ) ≤
          ((lookbacks.foldl max 0 + WARMUP_BUFFER : ℕ) : ℤ) then []
      else scanLoop decideF S horizon_days (S.length - horizon_days) (S.length - horizon_days)
        (lookbacks.foldl max 0 + WARMUP_BUFFER) := by
  unfold run_backtest
  split
  next h => rw [if_pos h]
  next h => rw [if_neg h, compute_metrics_trades]

/-- C3: consecutive trades of a backtest over a series with
non-decreasing timestamps and positive horizon never overlap:
`exit_date(i) ≤ entry_date(i+1)`, because the scan index advances by the
full horizon after each appended trade. -/
theorem run_backtest_no_overlap (decideF : ℕ → SignalDirection) (S : List Bar)
    (lookbacks : List ℕ) (ticker period : String) (horizon_days : ℕ) (initial_capital : ℚ)
    (hmono : ∀ i j, i ≤ j → j < S.length → dateAt S i ≤ dateAt S j)
    (hhor : 1 ≤ horizon_days) :
    ∀ i tr1 tr2,
      (run_backtest decideF S lookbacks ticker period horizon_days
        initial_capital).trades.get? i = some tr1 →
      (run_backtest decideF S lookbacks ticker period horizon_days
        initial_capital).trades.get? (i + 1) = some tr2 →
      tr1.exit_date ≤ tr2.entry_date := by
  intro i tr1 tr2 h1 h2
  rw [run_backtest_trades] at h1 h2
  by_cases hg : (S.length : ℤ) - (horizon_days : ℤ) ≤
      ((lookbacks.foldl max 0 + WARMUP_BUFFER : ℕ) : ℤ)
  · rw [if_pos hg] at h1
    simp at h1
  · rw [if_neg hg] at h1 h2
    have hrange : (S.length - horizon_days) + horizon_days ≤ S.length := by omega
    have hchain := scanLoop_chain decideF S horizon_days (S.length - horizon_days)
      hmono hhor hrange (S.length - horizon_days) (lookbacks.foldl max 0 + WARMUP_BUFFER)
    rw [List.chain'_iff_get] at hchain
    obtain ⟨hlt1, rfl⟩ := List.get?_eq_some.mp h1
    obtain ⟨hlt2, rfl⟩ := List.get?_eq_some.mp h2
    exact hchain i (by omega)

/-- Decision function used in concrete engine runs: always BUY. -/
def witDecide : ℕ → SignalDirection := fun _ => SignalDirection.BUY

/-- A 54-bar constant series (date 0, prices 1). -/
def witBars : List Bar := List.replicate 54 ⟨0, 1, 1, 1, 1⟩

theorem witBars_date (k : ℕ) : dateAt witBars k = 0 := by
  simp only [dateAt, witBars, List.getD_eq_getElem?_getD, List.getElem?_replicate]
  by_cases hk : k < 54
  · simp [hk]
  · simp only [hk, if_false, Option.getD_none]
    rfl

/-- Witness for the no-overlap theorem: a concrete 54-bar run at
horizon 1 produces trades at indices 51 and 52, whose windows meet
without overlapping. -/
theorem run_backtest_no_overlap_witness :
    (∀ i j, i ≤ j → j < witBars.length → dateAt witBars i ≤ dateAt witBars j) ∧
    (run_backtest witDecide witBars [1] ("T") ("6mo") 1 10000).trades.get? 0 =
      some (mkTradeAt witBars 1 51 SignalDirection.BUY) ∧
    (run_backtest witDecide witBars [1] ("T") ("6mo") 1 10000).trades.get? 1 =
      some (mkTradeAt witBars 1 52 SignalDirection.BUY) ∧
    (mkTradeAt witBars 1 51 SignalDirection.BUY).exit_date ≤
      (mkTradeAt witBars 1 52 SignalDirection.BUY).entry_date := by
  have hmono : ∀ i j, i ≤ j → j < witBars.length → dateAt witBars i ≤ dateAt witBars j := by
    intro i j _ _
    rw [witBars_date, witBars_date]
  have htr : (run_backtest witDecide witBars [1] ("T") ("6mo") 1 10000).trades =
      [mkTradeAt witBars 1 51 SignalDirection.BUY,
       mkTradeAt witBars 1 52 SignalDirection.BUY] := by
    rw [run_backtest_trades]
    rw [if_neg (by simp [witBars, WARMUP_BUFFER])]
    simp only [witBars, List.length_replicate, WARMUP_BUFFER, List.foldl]
    norm_num
    simp only [scanLoop, witDecide]
    norm_num [witBars]
  have h1 : (run_backtest witDecide witBars [1] ("T") ("6mo") 1 10000).trades.get? 0 =
      some (mkTradeAt witBars 1 51 SignalDirection.BUY) := by rw [htr]; rfl
  have h2 : (run_backtest witDecide witBars [1] ("T") ("6mo") 1 10000).trades.get? 1 =
      some (mkTradeAt witBars 1 52 SignalDirection.BUY) := by rw [htr]; rfl
  exact ⟨hmono, h1, h2,
    run_backtest_no_overlap witDecide witBars [1] ("T") ("6mo") 1 10000 hmono
      (le_refl 1) 0 _ _ h1 h2⟩

/-- C4: when the series is no longer than warmup + horizon (warmup being
the maximum active lookback plus the fixed 50-bar buffer), the backtest
returns the freshly-initialized report: no trades and every metric at
its zero default (including the separately-embedded Sharpe ratio). -/
theorem run_backtest_short_series_empty (decideF : ℕ → SignalDirection) (S : List Bar)
    (indicators : List IndicatorId) (ticker period : String) (horizon_days : ℕ)
    (initial_capital : ℚ) (_hne : indicators ≠ [])
    (hshort : S.length ≤ (indicators.map lookbackI).foldl max 0 + WARMUP_BUFFER + horizon_days) :
    run_backtest decideF S (indicators.map lookbackI) ticker period horizon_days
        initial_capital =
      { ticker := ticker, period := period, horizon_days := horizon_days,
        initial_capital := initial_capital } ∧
    sharpe_ratio_value (run_backtest decideF S (indicators.map lookbackI) ticker period
      horizon_days initial_capital).trades = 0 := by
  have hg : (S.length : ℤ) - (horizon_days : ℤ) ≤
      (((indicators.map lookbackI).foldl max 0 + WARMUP_BUFFER : ℕ) : ℤ) := by omega
  have hrun : run_backtest decideF S (indicators.map lookbackI) ticker period horizon_days
      initial_capital =
      { ticker := ticker, period := period, horizon_days := horizon_days,
        initial_capital := initial_capital } := by
    unfold run_backtest
    rw [if_pos hg]
  refine ⟨hrun, ?_⟩
  rw [hrun]
  show sharpe_ratio_value [] = 0
  simp [sharpe_ratio_value]

/-- Witness for the short-series theorem: a 3-bar series with the VWAP
indicator and horizon 5. -/
theorem run_backtest_short_series_empty_witness :
    ([IndicatorId.VWAP] ≠ ([] : List IndicatorId)) ∧
    (List.replicate 3 (⟨0, 1, 1, 1, 1⟩ : Bar)).length ≤
      ([IndicatorId.VWAP].map lookbackI).foldl max 0 + WARMUP_BUFFER + 5 ∧
    (run_backtest witDecide (List.replicate 3 (⟨0, 1, 1, 1, 1⟩ : Bar))
        ([IndicatorId.VWAP].map lookbackI) ("T") ("6mo") 5 10000 =
      { ticker := ("T"), period := ("6mo"), horizon_days := 5, initial_capital := 10000 } ∧
    sharpe_ratio_value (run_backtest witDecide (List.replicate 3 (⟨0, 1, 1, 1, 1⟩ : Bar))
      ([IndicatorId.VWAP].map lookbackI) ("T") ("6mo") 5 10000).trades = 0) := by
  have hne : [IndicatorId.VWAP] ≠ ([] : List IndicatorId) := by simp
  have hshort : (List.replicate 3 (⟨0, 1, 1, 1, 1⟩ : Bar)).length ≤
      ([IndicatorId.VWAP].map lookbackI).foldl max 0 + WARMUP_BUFFER + 5 := by
    simp [lookbackI, WARMUP_BUFFER]
  exact ⟨hne, hshort,
    run_backtest_short_series_empty witDecide _ [IndicatorId.VWAP] ("T") ("6mo") 5 10000
      hne hshort⟩

/-- C5: every recorded trade classifies `actual_direction` as BUY
exactly when the close strictly rose over the horizon and SELL
otherwise (a zero change gives SELL), and `correct` is the equality of
predicted and actual directions. -/
theorem run_backtest_actual_direction (decideF : ℕ → SignalDirection) (S : List Bar)
    (lookbacks : List ℕ) (ticker period : String) (horizon_days : ℕ) (initial_capital : ℚ) :
    ∀ tr ∈ (run_backtest decideF S lookbacks ticker period horizon_days
        initial_capital).trades,
      tr.actual_direction =
        (if tr.entry_price < tr.exit_price then SignalDirection.BUY
          else SignalDirection.SELL) ∧
      tr.correct = decide (tr.predicted_direction = tr.actual_direction) ∧
      (tr.exit_price = tr.entry_price → tr.actual_direction = SignalDirection.SELL) := by
  intro tr htr
  rw [run_backtest_trades] at htr
  by_cases hg : (S.length : ℤ) - (horizon_days : ℤ) ≤
      ((lookbacks.foldl max 0 + WARMUP_BUFFER : ℕ) : ℤ)
  · rw [if_pos hg] at htr
    simp at htr
  · rw [if_neg hg] at htr
    obtain ⟨u, _, _, _, rfl⟩ := scanLoop_mem decideF S horizon_days
      (S.length - horizon_days) (S.length - horizon_days)
      (lookbacks.foldl max 0 + WARMUP_BUFFER) tr htr
    refine ⟨?_, ?_, ?_⟩
    · simp only [mkTradeAt]
      simp [sub_pos]
    · simp only [mkTradeAt]
    · simp only [mkTradeAt]
      intro hz
      rw [hz]
      simp

/-- Witness for the actual-direction theorem: the first trade of the
concrete constant-price run, whose zero price change is classified
SELL. -/
theorem run_backtest_actual_direction_witness :
    mkTradeAt witBars 1 51 SignalDirection.BUY ∈
      (run_backtest witDecide witBars [1] ("T") ("6mo") 1 10000).trades ∧
    ((mkTradeAt witBars 1 51 SignalDirection.BUY).actual_direction =
      (if (mkTradeAt witBars 1 51 SignalDirection.BUY).entry_price <
          (mkTradeAt witBars 1 51 SignalDirection.BUY).exit_price then SignalDirection.BUY
        else SignalDirection.SELL) ∧
    (mkTradeAt witBars 1 51 SignalDirection.BUY).correct =
      decide ((mkTradeAt witBars 1 51 SignalDirection.BUY).predicted_direction =
        (mkTradeAt witBars 1 51 SignalDirection.BUY).actual_direction) ∧
    ((mkTradeAt witBars 1 51 SignalDirection.BUY).exit_price =
        (mkTradeAt witBars 1 51 SignalDirection.BUY).entry_price →
      (mkTradeAt witBars 1 51 SignalDirection.BUY).actual_direction =
        SignalDirection.SELL)) := by
  have htr : (run_backtest witDecide witBars [1] ("T") ("6mo") 1 10000).trades =
      [mkTradeAt witBars 1 51 SignalDirection.BUY,
       mkTradeAt witBars 1 52 SignalDirection.BUY] := by
    rw [run_backtest_trades]
    rw [if_neg (by simp [witBars, WARMUP_BUFFER])]
    simp only [witBars, List.length_replicate, WARMUP_BUFFER, List.foldl]
    norm_num
    simp only [scanLoop, witDecide]
    norm_num [witBars]
  have hmem : mkTradeAt witBars 1 51 SignalDirection.BUY ∈
      (run_backtest witDecide witBars [1] ("T") ("6mo") 1 10000).trades := by
    rw [htr]
    exact List.mem_cons_self _ _
  exact ⟨hmem,
    run_backtest_actual_direction witDecide witBars [1] ("T") ("6mo") 1 10000 _ hmem⟩

/-!
## Metrics lemmas
-/

theorem list_sum_nonpos (l : List ℚ) (h : ∀ x ∈ l, x ≤ 0) : l.sum ≤ 0 := by
  induction l with
  | nil => simp
  | cons x xs ih =>
    simp only [List.sum_cons]
    have hx := h x (List.mem_cons_self x xs)
    have hxs := ih (fun y hy => h y (List.mem_cons_of_mem x hy))
    linarith

theorem scanl_getD_zero (f : ℚ → Trade → ℚ) (a : ℚ) (l : List Trade) :
    (List.scanl f a l).getD 0 0 = a := by
  cases l <;> simp [List.scanl]

theorem scanl_getD_succ (f : ℚ → Trade → ℚ) (a : ℚ) (l : List Trade) (i : ℕ)
    (h : i < l.length) :
    (List.scanl f a l).getD (i + 1) 0 =
      f ((List.scanl f a l).getD i 0) (l.getD i default) := by
  induction l generalizing a i with
  | nil => simp at h
  | cons x xs ih =>
    rw [List.scanl_cons]
    cases i with
    | zero =>
      simp [scanl_getD_zero]
    | succ j =>
      have hj : j < xs.length := by simpa using h
      simpa using ih (f a x) j hj

theorem compute_metrics_cons (r : BacktestReport) (t0 : Trade) (ts : List Trade)
    (h : r.trades = t0 :: ts) :
    compute_metrics r =
      { r with
        trades := t0 :: ts
        total_trades := (t0 :: ts).length
        winning_trades := ((t0 :: ts).filter (·.correct)).length
        losing_trades := (t0 :: ts).length - ((t0 :: ts).filter (·.correct)).length
        win_rate := (((t0 :: ts).filter (·.correct)).length : ℚ) / ((t0 :: ts).length : ℚ)
        cumulative_return :=
          (List.scanl (fun e t => e * (1 + t.pnl_pct)) r.initial_capital (t0 :: ts)).getLastD 0 /
            (List.scanl (fun e t => e * (1 + t.pnl_pct)) r.initial_capital (t0 :: ts)).headD 0 - 1
        max_drawdown :=
          drawdownLoop (List.scanl (fun e t => e * (1 + t.pnl_pct)) r.initial_capital (t0 :: ts))
            ((List.scanl (fun e t => e * (1 + t.pnl_pct)) r.initial_capital (t0 :: ts)).headD 0)
        profit_factor :=
          if 0 < abs ((((t0 :: ts).filter (fun t => decide (t.pnl_pct < 0))).map
              (·.pnl_pct)).sum) then
            PFValue.finite (((((t0 :: ts).filter (fun t => decide (0 < t.pnl_pct))).map
                (·.pnl_pct)).sum) /
              abs ((((t0 :: ts).filter (fun t => decide (t.pnl_pct < 0))).map (·.pnl_pct)).sum))
          else PFValue.infinity
        equity_curve :=
          (t0.entry_date :: (t0 :: ts).map (·.exit_date)).zip
            (List.scanl (fun e t => e * (1 + t.pnl_pct)) r.initial_capital (t0 :: ts)) } := by
  unfold compute_metrics
  rw [h]

/-- A winning trade with pnl_pct = +0.02 (used by the Scenario-B style
concrete checks). -/
def tradeB1 : Trade :=
  { entry_date := 0, exit_date := 1, direction := .BUY, entry_price := 100, exit_price := 102,
    predicted_direction := .BUY, actual_direction := .BUY, correct := true, pnl_pct := 0.02 }

/-- A losing trade with pnl_pct = −0.01. -/
def tradeB2 : Trade :=
  { entry_date := 1, exit_date := 2, direction := .BUY, entry_price := 102, exit_price := 100,
    predicted_direction := .BUY, actual_direction := .SELL, correct := false, pnl_pct := -0.01 }

/-- The Scenario-B report: trades [+0.02 correct, −0.01 incorrect] at
initial capital 10000. -/
def reportB : BacktestReport :=
  { ticker := ("T"), period := ("6mo"), horizon_days := 5, initial_capital := 10000,
    trades := [tradeB1, tradeB2] }

/-- C6: over any non-empty trade list with positive initial capital the
equity curve starts at the initial capital, multiplies by (1+pnl_pct)
per trade, is indexed by the first entry date followed by the exit
dates, and has length trades+1; Scenario B evaluates to
[10000, 10200, 10098] with cumulative return 0.0098 and win rate 1/2. -/
theorem compute_metrics_equity_spec :
    (∀ (r : BacktestReport) (t0 : Trade) (ts : List Trade), r.trades = t0 :: ts →
      0 < r.initial_capital →
      (compute_metrics r).equity_curve.length = r.trades.length + 1 ∧
      (compute_metrics r).equity_curve.map Prod.snd =
        List.scanl (fun e t => e * (1 + t.pnl_pct)) r.initial_capital r.trades ∧
      ((compute_metrics r).equity_curve.map Prod.snd).headD 0 = r.initial_capital ∧
      (∀ i, i < r.trades.length →
        ((compute_metrics r).equity_curve.map Prod.snd).getD (i + 1) 0 =
          ((compute_metrics r).equity_curve.map Prod.snd).getD i 0 *
            (1 + (r.trades.getD i default).pnl_pct)) ∧
      (compute_metrics r).equity_curve.map Prod.fst =
        t0.entry_date :: r.trades.map (·.exit_date)) ∧
    ((compute_metrics reportB).equity_curve.map Prod.snd = [10000, 10200, 10098] ∧
      (compute_metrics reportB).cumulative_return = 0.0098 ∧
      (compute_metrics reportB).win_rate = 1 / 2) := by
  have hgen : ∀ (r : BacktestReport) (t0 : Trade) (ts : List Trade), r.trades = t0 :: ts →
      0 < r.initial_capital →
      (compute_metrics r).equity_curve.length = r.trades.length + 1 ∧
      (compute_metrics r).equity_curve.map Prod.snd =
        List.scanl (fun e t => e * (1 + t.pnl_pct)) r.initial_capital r.trades ∧
      ((compute_metrics r).equity_curve.map Prod.snd).headD 0 = r.initial_capital ∧
      (∀ i, i < r.trades.length →
        ((compute_metrics r).equity_curve.map Prod.snd).getD (i + 1) 0 =
          ((compute_metrics r).equity_curve.map Prod.snd).getD i 0 *
            (1 + (r.trades.getD i default).pnl_pct)) ∧
      (compute_metrics r).equity_curve.map Prod.fst =
        t0.entry_date :: r.trades.map (·.exit_date) := by
    intro r t0 ts h _hcap
    have hlen_dates : (t0.entry_date :: (t0 :: ts).map (·.exit_date)).length =
        (t0 :: ts).length + 1 := by simp
    have hlen_scanl : (List.scanl (fun e t => e * (1 + t.pnl_pct))
        r.initial_capital (t0 :: ts)).length = (t0 :: ts).length + 1 :=
      List.length_scanl _ _
    have hcurve := compute_metrics_cons r t0 ts h
    have hsnd : (compute_metrics r).equity_curve.map Prod.snd =
        List.scanl (fun e t => e * (1 + t.pnl_pct)) r.initial_capital (t0 :: ts) := by
      rw [hcurve]
      exact List.map_snd_zip _ _ (by rw [hlen_dates, hlen_scanl])
    refine ⟨?_, ?_, ?_, ?_, ?_⟩
    · rw [hcurve, h]
      simp only [BacktestReport.equity_curve]
      rw [List.length_zip, hlen_dates, hlen_scanl]
      simp
    · rw [hsnd, h]
    · rw [hsnd]
      rw [List.scanl_cons]
      simp
    · intro i hi
      rw [hsnd, h]
      rw [h] at hi
      exact scanl_getD_succ _ _ _ i hi
    · rw [hcurve, h]
      simp only [BacktestReport.equity_curve]
      exact List.map_fst_zip _ _ (by rw [hlen_dates, hlen_scanl])
  refine ⟨hgen, ?_, ?_, ?_⟩
  · have hc := (hgen reportB tradeB1 [tradeB2] rfl (by norm_num [reportB])).2.1
    rw [hc]
    simp only [reportB, tradeB1, tradeB2, List.scanl_cons, List.scanl_nil]
    norm_num
  · rw [compute_metrics_cons reportB tradeB1 [tradeB2] rfl]
    simp only [reportB, tradeB1, tradeB2, List.scanl_cons, List.scanl_nil]
    norm_num
  · rw [compute_metrics_cons reportB tradeB1 [tradeB2] rfl]
    simp only [reportB, tradeB1, tradeB2]
    norm_num [List.filter]

/-- Witness for C6 at the Scenario-B report. -/
theorem compute_metrics_equity_spec_witness :
    (reportB.trades = tradeB1 :: [tradeB2]) ∧ (0 < reportB.initial_capital) ∧
    ((compute_metrics reportB).equity_curve.length = reportB.trades.length + 1 ∧
      (compute_metrics reportB).equity_curve.map Prod.snd =
        List.scanl (fun e t => e * (1 + t.pnl_pct)) reportB.initial_capital reportB.trades ∧
      ((compute_metrics reportB).equity_curve.map Prod.snd).headD 0 =
        reportB.initial_capital ∧
      (∀ i, i < reportB.trades.length →
        ((compute_metrics reportB).equity_curve.map Prod.snd).getD (i + 1) 0 =
          ((compute_metrics reportB).equity_curve.map Prod.snd).getD i 0 *
            (1 + (reportB.trades.getD i default).pnl_pct)) ∧
      (compute_metrics reportB).equity_curve.map Prod.fst =
        tradeB1.entry_date :: reportB.trades.map (·.exit_date)) := by
  have hcap : 0 < reportB.initial_capital := by norm_num [reportB]
  exact ⟨rfl, hcap, compute_metrics_equity_spec.1 reportB tradeB1 [tradeB2] rfl hcap⟩

/-- C7: over any non-empty trade list the profit factor is the ratio of
gross profit to the absolute gross loss whenever some trade lost, and
the positive-infinity sentinel (never an error value) when no trade has
negative pnl_pct. -/
theorem compute_metrics_profit_factor_spec (r : BacktestReport) (t0 : Trade)
    (ts : List Trade) (h : r.trades = t0 :: ts) :
    ((∃ t ∈ r.trades, t.pnl_pct < 0) →
      (compute_metrics r).profit_factor =
        PFValue.finite
          ((((r.trades.filter (fun t => decide (0 < t.pnl_pct))).map (·.pnl_pct)).sum) /
            abs (((r.trades.filter (fun t => decide (t.pnl_pct < 0))).map
              (·.pnl_pct)).sum))) ∧
    ((∀ t ∈ r.trades, 0 ≤ t.pnl_pct) →
      (compute_metrics r).profit_factor = PFValue.infinity) := by
  rw [compute_metrics_cons r t0 ts h, h]
  constructor
  · intro hex
    obtain ⟨t, htmem, htneg⟩ := hex
    have hmemf : t.pnl_pct ∈ ((t0 :: ts).filter (fun t => decide (t.pnl_pct < 0))).map
        (·.pnl_pct) :=
      List.mem_map_of_mem _ (List.mem_filter.mpr ⟨htmem, by simpa using htneg⟩)
    have hallneg : ∀ x ∈ ((t0 :: ts).filter (fun t => decide (t.pnl_pct < 0))).map
        (·.pnl_pct), x < 0 := by
      intro x hx
      obtain ⟨u, hu, rfl⟩ := List.mem_map.mp hx
      simpa using (List.mem_filter.mp hu).2
    have hsum : (((t0 :: ts).filter (fun t => decide (t.pnl_pct < 0))).map
        (·.pnl_pct)).sum < 0 := by
      rcases hl : ((t0 :: ts).filter (fun t => decide (t.pnl_pct < 0))).map (·.pnl_pct) with
        _ | ⟨x, xs⟩
      · rw [hl] at hmemf; simp at hmemf
      · rw [hl]
        rw [hl] at hallneg
        have : ∀ y ∈ xs, y ≤ 0 := fun y hy => le_of_lt (hallneg y (List.mem_cons_of_mem x hy))
        have hx0 : x < 0 := hallneg x (List.mem_cons_self x xs)
        have hxs : xs.sum ≤ 0 := list_sum_nonpos xs this
        simp only [List.sum_cons]
        linarith
    have habs : 0 < abs (((t0 :: ts).filter (fun t => decide (t.pnl_pct < 0))).map
        (·.pnl_pct)).sum := abs_pos.mpr (ne_of_lt hsum)
    simp [habs]
  · intro hnn
    have hfil : (t0 :: ts).filter (fun t => decide (t.pnl_pct < 0)) = [] := by
      rw [List.filter_eq_nil_iff]
      intro a ha
      have := hnn a ha
      simpa using this
    simp [hfil]

/-- A report whose single trade is a winner (no losing trades). -/
def reportC : BacktestReport :=
  { ticker := ("T"), period := ("6mo"), horizon_days := 5, initial_capital := 10000,
    trades := [tradeB1] }

/-- Witness for C7: the all-winning report yields the infinity sentinel,
and Scenario B (one loser) yields the finite ratio. -/
theorem compute_metrics_profit_factor_spec_witness :
    (reportC.trades = tradeB1 :: []) ∧
    (∀ t ∈ reportC.trades, 0 ≤ t.pnl_pct) ∧
    (compute_metrics reportC).profit_factor = PFValue.infinity := by
  have hnn : ∀ t ∈ reportC.trades, 0 ≤ t.pnl_pct := by
    intro t ht
    simp only [reportC, List.mem_singleton] at ht
    subst ht
    norm_num [tradeB1]
  exact ⟨rfl, hnn, (compute_metrics_profit_factor_spec reportC tradeB1 [] rfl).2 hnn⟩

/-- C9: the Sharpe ratio equals `mean(pnl)/std(pnl)·√252` (population
standard deviation, as `np.std` computes) when there is more than one
trade and the standard deviation is nonzero, and 0 otherwise. -/
theorem sharpe_ratio_value_spec (trades : List Trade) :
    ((1 < trades.length ∧ npVar (trades.map (·.pnl_pct)) ≠ 0) →
      sharpe_ratio_value trades =
        ((npMean (trades.map (·.pnl_pct)) : ℝ) /
            Real.sqrt ((npVar (trades.map (·.pnl_pct)) : ℚ) : ℝ)) * Real.sqrt 252) ∧
    (¬ (1 < trades.length ∧ npVar (trades.map (·.pnl_pct)) ≠ 0) →
      sharpe_ratio_value trades = 0) := by
  have hvar_nonneg : 0 ≤ npVar (trades.map (·.pnl_pct)) := by
    unfold npVar
    apply div_nonneg
    · apply List.sum_nonneg
      intro x hx
      obtain ⟨y, _, rfl⟩ := List.mem_map.mp hx
      positivity
    · positivity
  constructor
  · rintro ⟨hlen, hvar⟩
    have hpos : 0 < npVar (trades.map (·.pnl_pct)) :=
      lt_of_le_of_ne hvar_nonneg (Ne.symm hvar)
    unfold sharpe_ratio_value
    rw [if_pos ⟨by simpa using hlen, hpos⟩]
  · intro hn
    unfold sharpe_ratio_value
    rw [if_neg]
    intro hc
    exact hn ⟨by simpa using hc.1, ne_of_gt hc.2⟩

/-- Witness for C9 at the two Scenario-B trades, whose returns have
positive variance. -/
theorem sharpe_ratio_value_spec_witness :
    (1 < ([tradeB1, tradeB2] : List Trade).length ∧
      npVar (([tradeB1, tradeB2] : List Trade).map (·.pnl_pct)) ≠ 0) ∧
    sharpe_ratio_value [tradeB1, tradeB2] =
      ((npMean (([tradeB1, tradeB2] : List Trade).map (·.pnl_pct)) : ℝ) /
          Real.sqrt ((npVar (([tradeB1, tradeB2] : List Trade).map (·.pnl_pct)) : ℚ) : ℝ)) *
        Real.sqrt 252 := by
  have hh : 1 < ([tradeB1, tradeB2] : List Trade).length ∧
      npVar (([tradeB1, tradeB2] : List Trade).map (·.pnl_pct)) ≠ 0 := by
    constructor
    · simp
    · simp only [List.map, tradeB1, tradeB2]
      norm_num [npVar, npMean]
  exact ⟨hh, (sharpe_ratio_value_spec [tradeB1, tradeB2]).1 hh⟩

/-- C2 (amended): for every built-in indicator, series `S` and position
`t < S.length` with `t + 1` at least the indicator's lookback, the
columns computed over the prefix `S[0..t+1]` read at position `t` agree
with the columns computed over the full series read at position `t`.
(The length guard of each `compute` makes the unrestricted statement
false below the lookback; the engine only ever reads positions past
`warmup > lookback`.) -/
theorem computeI_causal (ind : IndicatorId) (S : List Bar) (t : ℕ)
    (ht : t < S.length) (hlb : lookbackI ind ≤ t + 1) :
    (computeI ind (S.take (t + 1))).map (fun col => col.get? t) =
      (computeI ind S).map (fun col => col.get? t) := by
  rw [computeI_take ind S (t + 1) hlb (by omega)]
  rw [List.map_map]
  apply List.map_congr_left
  intro col _
  exact List.get?_take (Nat.lt_succ_self t)

/-- Witness for the amended causality theorem: VWAP on a one-bar series
at position 0. -/
theorem computeI_causal_witness :
    (0 < ([⟨0, 1, 1, 1, 1⟩] : List Bar).length) ∧
    (lookbackI IndicatorId.VWAP ≤ 0 + 1) ∧
    (computeI IndicatorId.VWAP (([⟨0, 1, 1, 1, 1⟩] : List Bar).take (0 + 1))).map
        (fun col => col.get? 0) =
      (computeI IndicatorId.VWAP ([⟨0, 1, 1, 1, 1⟩] : List Bar)).map
        (fun col => col.get? 0) := by
  refine ⟨by simp, by simp [lookbackI], ?_⟩
  exact computeI_causal IndicatorId.VWAP [⟨0, 1, 1, 1, 1⟩] 0 (by simp) (by simp [lookbackI])

/-- A 50-bar constant series (all prices and volumes 1). -/
def cxBars : List Bar := List.replicate 50 ⟨0, 1, 1, 1, 1⟩

set_option maxRecDepth 8000 in
/-- Counterexample to the unrestricted causality claim: for the SMA
Crossover indicator on a 50-bar constant series at position 19, the
`SMA_short` (window 20) cell is defined (value 1) on the full series,
but `compute` on the 20-bar prefix hits the `len(df) < lookback` guard
(lookback 50) and returns NaN there — so the prefix read differs from
the full-series read. -/
theorem computeI_causality_counterexample :
    (computeI IndicatorId.SMACrossover (cxBars.take 20)).map (fun col => col.get? 19) =
      [some none, some none] ∧
    (computeI IndicatorId.SMACrossover cxBars).map (fun col => col.get? 19) =
      [some (some 1), some none] ∧
    ¬ ((computeI IndicatorId.SMACrossover (cxBars.take 20)).map (fun col => col.get? 19) =
      (computeI IndicatorId.SMACrossover cxBars).map (fun col => col.get? 19)) := by
  have h1 : (computeI IndicatorId.SMACrossover (cxBars.take 20)).map (fun col => col.get? 19) =
      [some none, some none] := by
    rw [show cxBars.take 20 = List.replicate 20 ⟨0, 1, 1, 1, 1⟩ by
      simp [cxBars, List.take_replicate]]
    simp only [computeI, SMA_LONG, List.length_replicate]
    norm_num
    simp [nanCols, List.getElem?_replicate]
  have h2 : (computeI IndicatorId.SMACrossover cxBars).map (fun col => col.get? 19) =
      [some (some 1), some none] := by
    simp only [computeI, cxBars, SMA_LONG, List.length_replicate]
    norm_num
    simp only [SMA_short_col, SMA_long_col, SMA_SHORT, SMA_LONG, closes, rollingMean,
      rollingAgg, windowMean, streamMap, List.replicate, List.map, List.take,
      List.length_cons, List.length_nil, List.sum_cons, List.sum_nil]
    norm_num
  refine ⟨h1, h2, ?_⟩
  rw [h1, h2]
  simp

end Capitalisman
